import Mathlib

/-!
# go-minercraft: transaction submission and provider configuration

A shallow embedding of `submit_transaction.go` and `config.go`.

* Go strings and byte slices are sequences of bytes (`GoString`).
* Pointers that may be nil are `Option`s.
* A function returning `(value, error)` returns both components, each an `Option`.
* Every call that leaves the two files (`httpRequest`, `JSONEnvelope.process`,
  `json.Marshal`, `json.Unmarshal`) is recorded in a list of `Call`s, in order.
* JSON documents are value trees (`Json`); the byte syntax of JSON and the
  collaborators whose code is in other files are the fields of `Externals`.
-/

namespace Minercraft

/-! ## Strings -/

/-- A Go `string` or `[]byte`: a sequence of bytes, not necessarily valid UTF-8. -/
abbrev GoString := List UInt8

/-- The bytes of a string literal of the source. -/
def str (s : String) : GoString := s.toList.flatMap String.utf8EncodeChar

/-- The table `first` of `unicode/utf8` together with `acceptRanges`: for a lead
byte, the width of the encoding and the bounds on the second byte; `none` for
the bytes that start no encoding (`xx`). ASCII bytes are handled by the callers. -/
def utf8First (b : UInt8) : Option (Nat × UInt8 × UInt8) :=
  if b < 0xC2 then none
  else if b ≤ 0xDF then some (2, 0x80, 0xBF)
  else if b = 0xE0 then some (3, 0xA0, 0xBF)
  else if b = 0xED then some (3, 0x80, 0x9F)
  else if b ≤ 0xEF then some (3, 0x80, 0xBF)
  else if b = 0xF0 then some (4, 0x90, 0xBF)
  else if b ≤ 0xF3 then some (4, 0x80, 0xBF)
  else if b = 0xF4 then some (4, 0x80, 0x8F)
  else none

/-- A continuation byte, `locb ≤ b ≤ hicb`. -/
def utf8Cont (b : UInt8) : Bool := 0x80 ≤ b && b ≤ 0xBF

/-- The size component of `utf8.DecodeRuneInString` on a string starting with a
non-ASCII byte: `none` stands for the result `(RuneError, 1)`, `some n` for a
well-formed encoding of width `n`. -/
def decodeRuneWidth (p : GoString) : Option Nat :=
  match p with
  | [] => none
  | p0 :: rest =>
    match utf8First p0 with
    | none => none
    | some (sz, lo, hi) =>
      match rest with
      | [] => none
      | b1 :: rest1 =>
        if b1 < lo || hi < b1 then none
        else if sz ≤ 2 then some 2
        else match rest1 with
          | [] => none
          | b2 :: rest2 =>
            if !utf8Cont b2 then none
            else if sz ≤ 3 then some 3
            else match rest2 with
              | [] => none
              | b3 :: _ => if !utf8Cont b3 then none else some 4

/-- The loop of `utf8.ValidString`, with the length of the string as fuel. -/
def validStringLoop : Nat → GoString → Bool
  | _, [] => true
  | 0, _ :: _ => false
  | fuel + 1, b :: rest =>
    if b < 0x80 then validStringLoop fuel rest
    else match decodeRuneWidth (b :: rest) with
      | none => false
      | some size => validStringLoop fuel ((b :: rest).drop size)

/-- Go's `utf8.ValidString`. -/
def validString (s : GoString) : Bool := validStringLoop s.length s

/-- The string a JSON string written by `json.Marshal` stands for: the encoder
copies well-formed encodings and writes U+FFFD (bytes EF BF BD) for every byte
at which `utf8.DecodeRuneInString` returns `(RuneError, 1)`. Fuel is the
length of the string. -/
def coerceLoop : Nat → GoString → GoString
  | _, [] => []
  | 0, _ :: _ => []
  | fuel + 1, b :: rest =>
    if b < 0x80 then b :: coerceLoop fuel rest
    else match decodeRuneWidth (b :: rest) with
      | none => [0xEF, 0xBF, 0xBD] ++ coerceLoop fuel rest
      | some size => (b :: rest).take size ++ coerceLoop fuel ((b :: rest).drop size)

/-- String values "encode as JSON strings coerced to valid UTF-8, replacing
invalid bytes with the Unicode replacement rune" (package `encoding/json`). -/
def toValidUTF8 (s : GoString) : GoString := coerceLoop s.length s

/-! ## JSON documents -/

/-- A JSON value. A number written as an integer literal carries its value; a
number written with a fraction or an exponent carries its literal. -/
inductive Json where
  | null
  | bool (b : Bool)
  | number (n : Int)
  | real (literal : GoString)
  | string (s : GoString)
  | array (elems : List Json)
  | object (members : List (GoString × Json))

/-- The kinds of JSON value `json.UnmarshalTypeError.Value` distinguishes. -/
inductive JsonKind where
  | null | bool | number | string | array | object
  deriving DecidableEq, Repr

/-- The kind of a JSON value. -/
def Json.kind : Json → JsonKind
  | .null => .null
  | .bool _ => .bool
  | .number _ => .number
  | .real _ => .number
  | .string _ => .string
  | .array _ => .array
  | .object _ => .object

/-! ## Errors -/

/-- A Go `error` value. -/
inductive Error where
  /-- The value of `errors.New(text)`. -/
  | errorString (text : GoString)
  /-- The value of `fmt.Errorf(format, err)` whose format ends in `%w`. -/
  | wrapError (text : GoString) (err : Error)
  /-- A `*json.SyntaxError`: the text is not JSON. -/
  | jsonSyntaxError
  /-- A `*json.UnmarshalTypeError`: a JSON value of kind `value` met a Go value
  of type `goType`. -/
  | unmarshalTypeError (value : JsonKind) (goType : GoString)
  /-- An error made by a collaborator outside these files. -/
  | foreign (code : Nat)
  deriving DecidableEq

/-- Go keeps the first error it meets while decoding (`decodeState.saveError`). -/
def firstError (a b : Option Error) : Option Error :=
  match a with
  | some e => some e
  | none => b

/-! ## The data model of `submit_transaction.go` -/

/-- Transaction is the body contents in the "submit transaction" request. -/
structure Transaction where
  CallBackEncryption : GoString
  CallBackToken : GoString
  CallBackURL : GoString
  DsCheck : Bool
  MerkleFormat : GoString
  MerkleProof : Bool
  RawTx : GoString
  deriving DecidableEq

/-- ConflictedWith contains the information about the transactions that conflict
with the transaction submitted. `Size` is a Go `int`. -/
structure ConflictedWith where
  Hex : GoString
  Size : Int
  TxID : GoString
  deriving DecidableEq

/-- SubmissionPayload is the unmarshalled version of the payload envelope. The
slice `ConflictedWith` is `none` when nil; each of its elements is a pointer.
The height and the expiry are `int64`. -/
structure SubmissionPayload where
  APIVersion : GoString
  ConflictedWith : Option (List (Option ConflictedWith))
  CurrentHighestBlockHash : GoString
  CurrentHighestBlockHeight : Int
  MinerID : GoString
  ResultDescription : GoString
  ReturnResult : GoString
  Timestamp : GoString
  TxID : GoString
  TxSecondMempoolExpiry : Int
  deriving DecidableEq

/-- Callback is the body contents posted to the provided callback url.
`BlockHeight` is a `uint64`. -/
structure Callback where
  APIVersion : GoString
  BlockHash : GoString
  BlockHeight : Nat
  CallbackPayload : GoString
  CallbackReason : GoString
  CallbackTxID : GoString
  MinerID : GoString
  Timestamp : GoString
  deriving DecidableEq

/-- MerkleFormatTSC can be set when calling SubmitTransaction. -/
def MerkleFormatTSC : GoString := str "TSC"

/-- The zero value of `ConflictedWith`. -/
def ConflictedWith.zero : ConflictedWith := ⟨[], 0, []⟩

/-- The zero value of `SubmissionPayload`. -/
def SubmissionPayload.zero : SubmissionPayload := ⟨[], none, [], 0, [], [], [], [], [], 0⟩

/-- The zero value of `Callback`. -/
def Callback.zero : Callback := ⟨[], [], 0, [], [], [], [], []⟩

/-- The width of a Go `int` (a 64-bit platform). -/
def intSize : Nat := 64

/-- A value of a signed integer type of `bits` bits. -/
def fitsInt (bits : Nat) (n : Int) : Bool :=
  decide (-(2 : Int) ^ (bits - 1) ≤ n) && decide (n < (2 : Int) ^ (bits - 1))

/-- A value of an unsigned integer type of `bits` bits. -/
def fitsUint (bits : Nat) (n : Int) : Bool := decide (0 ≤ n) && decide (n < (2 : Int) ^ bits)

/-! ## `json.Marshal` on these types, as value trees

Struct fields are written in declaration order under the key of their tag;
a field tagged `omitempty` is left out when it is the empty string or false. -/

/-- The members an `omitempty` string field contributes. -/
def omitEmptyString (key : GoString) (s : GoString) : List (GoString × Json) :=
  if s.length = 0 then [] else [(key, .string (toValidUTF8 s))]

/-- The members an `omitempty` bool field contributes. -/
def omitEmptyBool (key : GoString) (b : Bool) : List (GoString × Json) :=
  if b then [(key, .bool b)] else []

/-- The document `json.Marshal` writes for a `*Transaction`. -/
def marshalTransaction : Option Transaction → Json
  | none => .null
  | some tx => .object (
      omitEmptyString (str "callBackEncryption") tx.CallBackEncryption ++
      omitEmptyString (str "callBackToken") tx.CallBackToken ++
      omitEmptyString (str "callBackUrl") tx.CallBackURL ++
      omitEmptyBool (str "dsCheck") tx.DsCheck ++
      omitEmptyString (str "merkleFormat") tx.MerkleFormat ++
      omitEmptyBool (str "merkleProof") tx.MerkleProof ++
      [(str "rawtx", .string (toValidUTF8 tx.RawTx))])

/-- The document `json.Marshal` writes for a `*ConflictedWith`. -/
def marshalConflictedWith : Option ConflictedWith → Json
  | none => .null
  | some c => .object [
      (str "hex", .string (toValidUTF8 c.Hex)),
      (str "size", .number c.Size),
      (str "txid", .string (toValidUTF8 c.TxID))]

/-- The document `json.Marshal` writes for a `[]*ConflictedWith`. -/
def marshalConflictedWithSlice : Option (List (Option ConflictedWith)) → Json
  | none => .null
  | some cs => .array (cs.map marshalConflictedWith)

/-- The document `json.Marshal` writes for a `SubmissionPayload`. -/
def marshalSubmissionPayload (p : SubmissionPayload) : Json :=
  .object [
    (str "apiVersion", .string (toValidUTF8 p.APIVersion)),
    (str "conflictedWith", marshalConflictedWithSlice p.ConflictedWith),
    (str "currentHighestBlockHash", .string (toValidUTF8 p.CurrentHighestBlockHash)),
    (str "currentHighestBlockHeight", .number p.CurrentHighestBlockHeight),
    (str "minerId", .string (toValidUTF8 p.MinerID)),
    (str "resultDescription", .string (toValidUTF8 p.ResultDescription)),
    (str "returnResult", .string (toValidUTF8 p.ReturnResult)),
    (str "timestamp", .string (toValidUTF8 p.Timestamp)),
    (str "txid", .string (toValidUTF8 p.TxID)),
    (str "txSecondMempoolExpiry", .number p.TxSecondMempoolExpiry)]

/-- The document `json.Marshal` writes for a `Callback`. -/
def marshalCallback (c : Callback) : Json :=
  .object [
    (str "apiVersion", .string (toValidUTF8 c.APIVersion)),
    (str "blockHash", .string (toValidUTF8 c.BlockHash)),
    (str "blockHeight", .number c.BlockHeight),
    (str "callbackPayload", .string (toValidUTF8 c.CallbackPayload)),
    (str "callbackReason", .string (toValidUTF8 c.CallbackReason)),
    (str "callbackTxId", .string (toValidUTF8 c.CallbackTxID)),
    (str "minerId", .string (toValidUTF8 c.MinerID)),
    (str "timestamp", .string (toValidUTF8 c.Timestamp))]

/-! ## `json.Unmarshal` on these types, as value trees

Every decoder takes the current value of the location it writes: a `null`
leaves a string or a number as it is and clears a pointer or a slice; a value
of the wrong kind leaves the location as it is and reports a type error; the
decoder goes on after a type error and returns the first one. -/

/-- The position of the first entry of `names` for which `p` holds. -/
def indexWhere (p : GoString → Bool) : List GoString → Option Nat
  | [] => none
  | n :: ns => if p n then some 0 else (indexWhere p ns).map (· + 1)

/-- The struct field an object key sets: the field whose name is the key, or
else the first field whose name equals the key under the case folding `fold`
of package `encoding/json`. -/
def findField (fold : GoString → GoString) (names : List GoString) (key : GoString) :
    Option Nat :=
  match indexWhere (fun n => n == key) names with
  | some i => some i
  | none => indexWhere (fun n => fold n == fold key) names

/-- Decoding a JSON value into a `string`. -/
def unmarshalString (cur : GoString) : Json → GoString × Option Error
  | .null => (cur, none)
  | .string s => (s, none)
  | j => (cur, some (.unmarshalTypeError j.kind (str "string")))

/-- Decoding a JSON value into a signed integer of `bits` bits called `goType`. -/
def unmarshalInt (bits : Nat) (goType : GoString) (cur : Int) : Json → Int × Option Error
  | .null => (cur, none)
  | .number n =>
    if fitsInt bits n then (n, none) else (cur, some (.unmarshalTypeError .number goType))
  | j => (cur, some (.unmarshalTypeError j.kind goType))

/-- Decoding a JSON value into a `uint64`. -/
def unmarshalUint64 (cur : Nat) : Json → Nat × Option Error
  | .null => (cur, none)
  | .number n =>
    if fitsUint 64 n then (n.toNat, none)
    else (cur, some (.unmarshalTypeError .number (str "uint64")))
  | j => (cur, some (.unmarshalTypeError j.kind (str "uint64")))

/-- Decoding the members of a JSON object one after the other into a struct. -/
def unmarshalMembers {α : Type} (set : α → GoString × Json → α × Option Error) :
    α → List (GoString × Json) → α × Option Error
  | v, [] => (v, none)
  | v, m :: ms =>
    let r := set v m
    let rs := unmarshalMembers set r.1 ms
    (rs.1, firstError r.2 rs.2)

/-- The keys of `ConflictedWith`, in declaration order. -/
def ConflictedWith.fields : List GoString := [str "hex", str "size", str "txid"]

/-- Decoding one object member into a `ConflictedWith`. -/
def ConflictedWith.setMember (fold : GoString → GoString) (c : ConflictedWith)
    (m : GoString × Json) : ConflictedWith × Option Error :=
  match findField fold ConflictedWith.fields m.1 with
  | some 0 => let r := unmarshalString c.Hex m.2; ({ c with Hex := r.1 }, r.2)
  | some 1 => let r := unmarshalInt intSize (str "int") c.Size m.2; ({ c with Size := r.1 }, r.2)
  | some 2 => let r := unmarshalString c.TxID m.2; ({ c with TxID := r.1 }, r.2)
  | _ => (c, none)

/-- Decoding a JSON value into a `ConflictedWith`. -/
def unmarshalConflictedWith (fold : GoString → GoString) (c : ConflictedWith) :
    Json → ConflictedWith × Option Error
  | .null => (c, none)
  | .object ms => unmarshalMembers (ConflictedWith.setMember fold) c ms
  | j => (c, some (.unmarshalTypeError j.kind (str "minercraft.ConflictedWith")))

/-- Decoding a JSON value into a `*ConflictedWith`: `null` clears the pointer,
any other value is decoded into what the pointer points to, allocated first
when the pointer is nil. -/
def unmarshalConflictedWithPtr (fold : GoString → GoString) (p : Option ConflictedWith) :
    Json → Option ConflictedWith × Option Error
  | .null => (none, none)
  | j =>
    let r := unmarshalConflictedWith fold (p.getD ConflictedWith.zero) j
    (some r.1, r.2)

/-- Decoding the elements of a JSON array: element `i` is decoded into element
`i` of the slice as it was, or into a nil pointer past its end. -/
def unmarshalElems (fold : GoString → GoString) :
    List (Option ConflictedWith) → List Json → List (Option ConflictedWith) × Option Error
  | _, [] => ([], none)
  | old, j :: js =>
    let r := unmarshalConflictedWithPtr fold old.head?.join j
    let rs := unmarshalElems fold old.tail js
    (r.1 :: rs.1, firstError r.2 rs.2)

/-- Decoding a JSON value into a `[]*ConflictedWith`: `null` gives the nil
slice, an array a slice of its length (the empty array an empty slice that is
not nil). Slots of an existing slice between its length and its capacity are
taken to hold nil. -/
def unmarshalConflictedWithSlice (fold : GoString → GoString)
    (cur : Option (List (Option ConflictedWith))) :
    Json → Option (List (Option ConflictedWith)) × Option Error
  | .null => (none, none)
  | .array elems =>
    let r := unmarshalElems fold (cur.getD []) elems
    (some r.1, r.2)
  | j => (cur, some (.unmarshalTypeError j.kind (str "[]*minercraft.ConflictedWith")))

/-- The keys of `SubmissionPayload`, in declaration order. -/
def SubmissionPayload.fields : List GoString :=
  [str "apiVersion", str "conflictedWith", str "currentHighestBlockHash",
   str "currentHighestBlockHeight", str "minerId", str "resultDescription",
   str "returnResult", str "timestamp", str "txid", str "txSecondMempoolExpiry"]

/-- Decoding one object member into a `SubmissionPayload`. -/
def SubmissionPayload.setMember (fold : GoString → GoString) (p : SubmissionPayload)
    (m : GoString × Json) : SubmissionPayload × Option Error :=
  match findField fold SubmissionPayload.fields m.1 with
  | some 0 => let r := unmarshalString p.APIVersion m.2; ({ p with APIVersion := r.1 }, r.2)
  | some 1 =>
    let r := unmarshalConflictedWithSlice fold p.ConflictedWith m.2
    ({ p with ConflictedWith := r.1 }, r.2)
  | some 2 =>
    let r := unmarshalString p.CurrentHighestBlockHash m.2
    ({ p with CurrentHighestBlockHash := r.1 }, r.2)
  | some 3 =>
    let r := unmarshalInt 64 (str "int64") p.CurrentHighestBlockHeight m.2
    ({ p with CurrentHighestBlockHeight := r.1 }, r.2)
  | some 4 => let r := unmarshalString p.MinerID m.2; ({ p with MinerID := r.1 }, r.2)
  | some 5 =>
    let r := unmarshalString p.ResultDescription m.2
    ({ p with ResultDescription := r.1 }, r.2)
  | some 6 => let r := unmarshalString p.ReturnResult m.2; ({ p with ReturnResult := r.1 }, r.2)
  | some 7 => let r := unmarshalString p.Timestamp m.2; ({ p with Timestamp := r.1 }, r.2)
  | some 8 => let r := unmarshalString p.TxID m.2; ({ p with TxID := r.1 }, r.2)
  | some 9 =>
    let r := unmarshalInt 64 (str "int64") p.TxSecondMempoolExpiry m.2
    ({ p with TxSecondMempoolExpiry := r.1 }, r.2)
  | _ => (p, none)

/-- Decoding a JSON value into a `SubmissionPayload`. -/
def unmarshalSubmissionPayload (fold : GoString → GoString) (p : SubmissionPayload) :
    Json → SubmissionPayload × Option Error
  | .null => (p, none)
  | .object ms => unmarshalMembers (SubmissionPayload.setMember fold) p ms
  | j => (p, some (.unmarshalTypeError j.kind (str "minercraft.SubmissionPayload")))

/-- Decoding a JSON value into a `*SubmissionPayload`, the type of `Results`. -/
def unmarshalSubmissionPayloadPtr (fold : GoString → GoString) (p : Option SubmissionPayload) :
    Json → Option SubmissionPayload × Option Error
  | .null => (none, none)
  | j =>
    let r := unmarshalSubmissionPayload fold (p.getD SubmissionPayload.zero) j
    (some r.1, r.2)

/-- The keys of `Callback`, in declaration order. -/
def Callback.fields : List GoString :=
  [str "apiVersion", str "blockHash", str "blockHeight", str "callbackPayload",
   str "callbackReason", str "callbackTxId", str "minerId", str "timestamp"]

/-- Decoding one object member into a `Callback`. -/
def Callback.setMember (fold : GoString → GoString) (c : Callback)
    (m : GoString × Json) : Callback × Option Error :=
  match findField fold Callback.fields m.1 with
  | some 0 => let r := unmarshalString c.APIVersion m.2; ({ c with APIVersion := r.1 }, r.2)
  | some 1 => let r := unmarshalString c.BlockHash m.2; ({ c with BlockHash := r.1 }, r.2)
  | some 2 => let r := unmarshalUint64 c.BlockHeight m.2; ({ c with BlockHeight := r.1 }, r.2)
  | some 3 =>
    let r := unmarshalString c.CallbackPayload m.2
    ({ c with CallbackPayload := r.1 }, r.2)
  | some 4 => let r := unmarshalString c.CallbackReason m.2; ({ c with CallbackReason := r.1 }, r.2)
  | some 5 => let r := unmarshalString c.CallbackTxID m.2; ({ c with CallbackTxID := r.1 }, r.2)
  | some 6 => let r := unmarshalString c.MinerID m.2; ({ c with MinerID := r.1 }, r.2)
  | some 7 => let r := unmarshalString c.Timestamp m.2; ({ c with Timestamp := r.1 }, r.2)
  | _ => (c, none)

/-- Decoding a JSON value into a `Callback`. -/
def unmarshalCallback (fold : GoString → GoString) (c : Callback) :
    Json → Callback × Option Error
  | .null => (c, none)
  | .object ms => unmarshalMembers (Callback.setMember fold) c ms
  | j => (c, some (.unmarshalTypeError j.kind (str "minercraft.Callback")))

/-! ## `config.go` -/

/-- The current package version. -/
def version : GoString := str "v0.8.3"

/-- The default user agent for all requests. -/
def defaultUserAgent : GoString := str "go-minercraft: " ++ version

/-- A `time.Duration` of one second, in nanoseconds. -/
def second : Nat := 1000000000

/-- The timeout of the fastest quote, `20 * time.Second`. -/
def defaultFastQuoteTimeout : Nat := 20 * second

/-- The route for getting a policy quote. -/
def routePolicyQuote : GoString := str "/mapi/policyQuote"

/-- The route for getting a fee quote. -/
def routeFeeQuote : GoString := str "/mapi/feeQuote"

/-- The route for querying a transaction. -/
def routeQueryTx : GoString := str "/mapi/tx/"

/-- The route for submitting a transaction. -/
def routeSubmitTx : GoString := str "/mapi/tx"

/-- The route for submitting batched transactions. -/
def routeSubmitTxs : GoString := str "/mapi/txs"

/-- The name of the known miner for "Taal". -/
def MinerTaal : GoString := str "Taal"

/-- The name of the known miner for "Mempool". -/
def MinerMempool : GoString := str "Mempool"

/-- The name of the known miner for "Matterpool". -/
def MinerMatterpool : GoString := str "Matterpool"

/-- The name of the known miner for "GorillaPool". -/
def MinerGorillaPool : GoString := str "GorillaPool"

/-- One entry of the JSON text `KnownMiners`. -/
def knownMiner (name minerID token url : String) : Json :=
  .object [
    (str "name", .string (str name)),
    (str "miner_id", .string (str minerID)),
    (str "token", .string (str token)),
    (str "url", .string (str url))]

/-- KnownMiners is a pre-filled list of known miners: the entries of the JSON
array the constant holds, in order. -/
def KnownMiners : List Json := [
  knownMiner "Taal"
    "03e92d3e5c3f7bd945dfbf48e7a99393b1bfb3f11f380ae30d286e7ff2aec5a270"
    ""
    "https://merchantapi.taal.com",
  knownMiner "Mempool"
    "03e92d3e5c3f7bd945dfbf48e7a99393b1bfb3f11f380ae30d286e7ff2aec5a270"
    "561b756d12572020ea9a104c3441b71790acbbce95a6ddbf7e0630971af9424b"
    "https://www.ddpurse.com/openapi",
  knownMiner "Matterpool"
    "0253a9b2d017254b91704ba52aad0df5ca32b4fb5cb6b267ada6aefa2bc5833a93"
    ""
    "https://merchantapi.matterpool.io",
  knownMiner "GorillaPool"
    "03ad780153c47df915b3d2e23af727c68facaca4facd5f155bf5018b979b9aeb83"
    ""
    "https://merchantapi.gorillapool.io"]

/-- The string a JSON object holds under `key`, if it holds one. -/
def Json.stringMember (key : GoString) : Json → Option GoString
  | .object ms =>
    match ms.find? (fun m => m.1 == key) with
    | some (_, .string s) => some s
    | _ => none
  | _ => none

/-- The `name` of entry `i` of `KnownMiners`. -/
def knownMinerName (i : Fin KnownMiners.length) : Option GoString :=
  (KnownMiners.get i).stringMember (str "name")

/-- The `miner_id` of entry `i` of `KnownMiners`. -/
def knownMinerID (i : Fin KnownMiners.length) : Option GoString :=
  (KnownMiners.get i).stringMember (str "miner_id")

/-! ## Collaborators declared in other files -/

/-- Modelled from the spec: the declaration of `Miner` is in another file. A
Provider has a name, a public key (`miner_id`), a base URL and a bearer token,
the four keys of the entries of `KnownMiners`. -/
structure Miner where
  MinerID : GoString
  Name : GoString
  Token : GoString
  URL : GoString
  deriving DecidableEq

/-- Modelled from the spec: the declaration of `Client` is in another file; a
client is passed on to the transport as it is. -/
structure Client where
  handle : Nat
  deriving DecidableEq

/-- A `context.Context`, passed on to the transport as it is. -/
structure Context where
  handle : Nat
  deriving DecidableEq

/-- The argument of `httpRequest`, with the four fields `submitTransaction` sets. -/
structure httpPayload where
  Method : GoString
  URL : GoString
  Token : GoString
  Data : GoString
  deriving DecidableEq

/-- Modelled from the spec: the declaration of `RequestResponse` is in another
file. The Transport Adapter returns a status code, the raw body bytes and a
transport-level error if the call itself failed. -/
structure RequestResponse where
  BodyContents : GoString
  Error : Option Error
  StatusCode : Int
  deriving DecidableEq

/-- The value `submitTransaction` returns: the miner asked and the response of
the transport (`Response` is never nil). -/
structure internalResult where
  Response : RequestResponse
  Miner : Option Miner
  deriving DecidableEq

/-- Modelled from the spec: the declaration of `JSONEnvelope` is in another
file. The Envelope has `payload`, `signature`, `publicKey`, `encoding` and
`mimetype`. -/
structure JSONEnvelope where
  Payload : GoString
  Signature : GoString
  PublicKey : GoString
  Encoding : GoString
  MimeType : GoString
  deriving DecidableEq

/-- SubmitTransactionResponse is the raw response from the Merchant API request:
the embedded envelope and the unmarshalled payload. -/
structure SubmitTransactionResponse extends JSONEnvelope where
  Results : Option SubmissionPayload
  deriving DecidableEq

/-- What this file takes as given: the collaborators whose code is in other
files of the package, and the byte syntax of package `encoding/json`. -/
structure Externals where
  /-- The value of `httpRequest(ctx, client, payload)`, the one transport call. -/
  httpRequest : Context → Client → httpPayload → RequestResponse
  /-- The method `process(miner, bodyContents)` run on a zero envelope: the
  envelope it leaves behind and the error it returns. -/
  process : Option Miner → GoString → JSONEnvelope × Option Error
  /-- The bytes `json.Marshal` writes for a document. -/
  jsonBytes : Json → GoString
  /-- The document a JSON text holds; `none` when the text is not valid JSON. -/
  jsonValue : GoString → Option Json
  /-- The case folding under which `json.Unmarshal` matches a key to a field
  when no field has the key as its name. -/
  foldName : GoString → GoString

/-- A call that leaves `submit_transaction.go`. -/
inductive Call where
  | jsonMarshal (tx : Option Transaction)
  | httpRequest (ctx : Context) (client : Client) (payload : httpPayload)
  | process (miner : Option Miner) (bodyContents : GoString)
  | jsonUnmarshal (data : GoString)
  deriving DecidableEq

/-- A call to the transport. -/
def Call.isTransport : Call → Bool
  | .httpRequest _ _ _ => true
  | _ => false

/-- What a call of a function of the file amounts to: the value and the error
it returns and the calls it made, in order. -/
structure Returned (α : Type) where
  value : α
  err : Option Error
  calls : List Call

/-- `http.MethodPost`. -/
def MethodPost : GoString := str "POST"

/-- `json.Marshal(tx)` for a `*Transaction`: a struct of strings and bools (or
the nil pointer) always has an encoding. -/
def jsonMarshalTransaction (ext : Externals) (tx : Option Transaction) : GoString × Option Error :=
  (ext.jsonBytes (marshalTransaction tx), none)

/-- `json.Unmarshal(data, &results)` for `results` of type `*SubmissionPayload`:
a text that is not JSON is a syntax error and leaves `results` alone. -/
def jsonUnmarshalResults (ext : Externals) (data : GoString) (results : Option SubmissionPayload) :
    Option SubmissionPayload × Option Error :=
  match ext.jsonValue data with
  | none => (results, some .jsonSyntaxError)
  | some doc => unmarshalSubmissionPayloadPtr ext.foldName results doc

/-! ## `submit_transaction.go` -/

/-- submitTransaction will fire the HTTP request to submit a transaction. The
miner is not nil (the only caller has checked it). -/
def submitTransaction (ext : Externals) (ctx : Context) (client : Client) (miner : Miner)
    (tx : Option Transaction) : Returned (Option internalResult) :=
  let marshalled := jsonMarshalTransaction ext tx
  match marshalled.2 with
  | some err =>
    ⟨none, some (.wrapError (str "failed to marshall JSON when submitting transaction ") err),
      [.jsonMarshal tx]⟩
  | none =>
    let payload : httpPayload :=
      { Method := MethodPost
        URL := miner.URL ++ routeSubmitTx
        Token := miner.Token
        Data := marshalled.1 }
    ⟨some { Miner := some miner, Response := ext.httpRequest ctx client payload }, none,
      [.jsonMarshal tx, .httpRequest ctx client payload]⟩

/-- parseSubmission will convert the HTTP response into a struct and also
unmarshal the payload JSON data. -/
def parseSubmission (ext : Externals) (i : internalResult) : Returned SubmitTransactionResponse :=
  let processed := ext.process i.Miner i.Response.BodyContents
  let response : SubmitTransactionResponse := { toJSONEnvelope := processed.1, Results := none }
  match processed.2 with
  | some err => ⟨response, some err, [.process i.Miner i.Response.BodyContents]⟩
  | none =>
    if response.Payload.length > 0 then
      let decoded := jsonUnmarshalResults ext response.Payload response.Results
      ⟨{ response with Results := decoded.1 }, decoded.2,
        [.process i.Miner i.Response.BodyContents, .jsonUnmarshal response.Payload]⟩
    else
      ⟨response, none, [.process i.Miner i.Response.BodyContents]⟩

/-- The text of the error for a response without a result. -/
def failedGettingSubmission (miner : Miner) : Error :=
  .errorString (str "failed getting submission response from: " ++ miner.Name)

/-- SubmitTransaction will fire a Merchant API request to submit a given
transaction. `submitTransaction` returns a result or an error; the case of
neither, in which Go would dereference a nil result, is a case of its own here
and never occurs (`submitTransaction_eq`). -/
def SubmitTransaction (ext : Externals) (c : Client) (ctx : Context) (miner : Option Miner)
    (tx : Option Transaction) : Returned (Option SubmitTransactionResponse) :=
  match miner with
  | none => ⟨none, some (.errorString (str "miner was nil")), []⟩
  | some m =>
    let sent := submitTransaction ext ctx c m tx
    match sent.err, sent.value with
    | some err, _ => ⟨none, some err, sent.calls⟩
    | none, none => ⟨none, none, sent.calls⟩
    | none, some result =>
      match result.Response.Error with
      | some err => ⟨none, some err, sent.calls⟩
      | none =>
        let parsed := parseSubmission ext result
        match parsed.err with
        | some err => ⟨none, some err, sent.calls ++ parsed.calls⟩
        | none =>
          match parsed.value.Results with
          | none => ⟨none, some (failedGettingSubmission m), sent.calls ++ parsed.calls⟩
          | some results =>
            if results.ReturnResult.length = 0 then
              ⟨none, some (failedGettingSubmission m), sent.calls ++ parsed.calls⟩
            else
              ⟨some parsed.value, none, sent.calls ++ parsed.calls⟩

/-! ## Definitions used to state the properties -/

/-- The request `submitTransaction` hands to the transport: a POST to the URL
of the miner followed by the submission route, with the token of the miner and
the serialized transaction. -/
def submissionRequest (ext : Externals) (miner : Miner) (tx : Option Transaction) : httpPayload :=
  { Method := str "POST"
    URL := miner.URL ++ str "/mapi/tx"
    Token := miner.Token
    Data := ext.jsonBytes (marshalTransaction tx) }

/-- An example of the collaborators, for a caller that submits the nil
transaction: the transport answers every request with `response`, `process`
leaves `envelope` and returns `processError` whatever the body, the only JSON
text is the payload of the envelope, which holds `doc`, and the transaction is
written as `null`. -/
def exampleExternals (response : RequestResponse) (envelope : JSONEnvelope)
    (processError : Option Error) (doc : Option Json) : Externals :=
  { httpRequest := fun _ _ _ => response
    process := fun _ _ => (envelope, processError)
    jsonBytes := fun _ => str "null"
    jsonValue := fun text => if text = envelope.Payload then doc else none
    foldName := id }

/-- The example transaction of the source, with a callback and a merkle proof
in TSC format and without callback token or encryption. -/
def exampleTransaction : Transaction :=
  { CallBackEncryption := []
    CallBackToken := []
    CallBackURL := str "https://your.service.callback/endpoint"
    DsCheck := true
    MerkleFormat := MerkleFormatTSC
    MerkleProof := true
    RawTx := str "0100000001" }

/-- The miner "Taal" of `KnownMiners`. -/
def exampleMiner : Miner :=
  { MinerID := str "03e92d3e5c3f7bd945dfbf48e7a99393b1bfb3f11f380ae30d286e7ff2aec5a270"
    Name := MinerTaal
    Token := []
    URL := str "https://merchantapi.taal.com" }

/-- An envelope whose payload is `payload`. -/
def exampleEnvelope (payload : GoString) : JSONEnvelope :=
  { Payload := payload
    Signature := []
    PublicKey := str "03e92d3e5c3f7bd945dfbf48e7a99393b1bfb3f11f380ae30d286e7ff2aec5a270"
    Encoding := str "UTF-8"
    MimeType := str "application/json" }

/-- A response of the transport with status 200 and no error. -/
def exampleResponse : RequestResponse :=
  { BodyContents := str "(envelope)", Error := none, StatusCode := 200 }

/-- A provider that accepts what it is sent: its payload holds
`returnResult` "success". -/
def acceptingProvider : Externals :=
  exampleExternals exampleResponse
    (exampleEnvelope (str "\x7b\"returnResult\":\"success\"\x7d")) none
    (some (.object [(str "returnResult", .string (str "success"))]))

/-- A provider whose envelope is in order and whose payload holds an empty
`returnResult`. -/
def silentProvider : Externals :=
  exampleExternals exampleResponse
    (exampleEnvelope (str "\x7b\"returnResult\":\"\"\x7d")) none
    (some (.object [(str "returnResult", .string (str ""))]))

/-- A provider that cannot be reached: the transport returns an error. -/
def unreachableProvider : Externals :=
  exampleExternals { BodyContents := [], Error := some (.foreign 7), StatusCode := 0 }
    (exampleEnvelope []) none none

/-! ## The race for the fastest quote -/

/-- Modelled from the spec: how a Single-Provider Operation ends (sections 4.2
and 7): with a result, or with one of the failures of the taxonomy. The
operations are in other files. -/
inductive Classification (α : Type) where
  | operationResult (payload : α)
  | transportError
  | malformedEnvelope
  | malformedPayload
  | emptyResult
  deriving DecidableEq

/-- Modelled from the spec: a completion fed into the collection point of the
Race Coordinator, attributed to one provider, with the time it took. -/
structure Completion (α : Type) where
  provider : Miner
  latency : Nat
  classification : Classification α
  deriving DecidableEq

/-- Modelled from the spec: what the race returns, the result of the winner
with its provider, or `NoQuoteAvailable` with the individual failures. -/
inductive RaceResult (α : Type) where
  | winner (provider : Miner) (payload : α)
  | noQuoteAvailable (failures : List (Completion α))
  deriving DecidableEq

/-- Modelled from the spec: the Race Coordinator of section 4.3 (`FastestQuote`
is in another file). `arrivals` lists the completions in the order the
collection point observes them; `failures` holds the ones seen so far. The
first completion that is an `OperationResult` and came before the deadline
wins and the rest is discarded; with none, the race fails with
`NoQuoteAvailable`, carrying the failures. -/
def raceFrom {α : Type} (deadline : Nat) (failures : List (Completion α)) :
    List (Completion α) → RaceResult α
  | [] => .noQuoteAvailable failures
  | c :: rest =>
    match c.classification with
    | .operationResult payload =>
      if c.latency < deadline then .winner c.provider payload
      else raceFrom deadline (failures ++ [c]) rest
    | _ => raceFrom deadline (failures ++ [c]) rest

/-- Modelled from the spec: the race over all completions, bounded by
`deadline`. -/
def fastestQuote {α : Type} (deadline : Nat) (arrivals : List (Completion α)) : RaceResult α :=
  raceFrom deadline [] arrivals

/-! ## Documents `json.Unmarshal` accepts -/

/-- A JSON value a `string` field takes without a type error. -/
def acceptsString : Json → Bool
  | .null => true
  | .string _ => true
  | _ => false

/-- A JSON value a signed integer field of `bits` bits takes without a type
error: `null`, or an integer literal within the range of the type. -/
def acceptsInt (bits : Nat) : Json → Bool
  | .null => true
  | .number n => fitsInt bits n
  | _ => false

/-- A member a `ConflictedWith` takes without a type error: one that names no
field, or whose value suits the field it names. -/
def acceptsConflictedWithMember (fold : GoString → GoString) (m : GoString × Json) : Bool :=
  match findField fold ConflictedWith.fields m.1 with
  | some 0 => acceptsString m.2
  | some 1 => acceptsInt intSize m.2
  | some 2 => acceptsString m.2
  | _ => true

/-- A JSON value a `*ConflictedWith` takes without a type error. -/
def acceptsConflictedWith (fold : GoString → GoString) : Json → Bool
  | .null => true
  | .object ms => ms.all (acceptsConflictedWithMember fold)
  | _ => false

/-- A JSON value a `[]*ConflictedWith` takes without a type error. -/
def acceptsConflictedWithSlice (fold : GoString → GoString) : Json → Bool
  | .null => true
  | .array elems => elems.all (acceptsConflictedWith fold)
  | _ => false

/-- A member a `SubmissionPayload` takes without a type error. -/
def acceptsSubmissionPayloadMember (fold : GoString → GoString) (m : GoString × Json) : Bool :=
  match findField fold SubmissionPayload.fields m.1 with
  | some 0 => acceptsString m.2
  | some 1 => acceptsConflictedWithSlice fold m.2
  | some 2 => acceptsString m.2
  | some 3 => acceptsInt 64 m.2
  | some 4 => acceptsString m.2
  | some 5 => acceptsString m.2
  | some 6 => acceptsString m.2
  | some 7 => acceptsString m.2
  | some 8 => acceptsString m.2
  | some 9 => acceptsInt 64 m.2
  | _ => true

/-- A document that is valid JSON for the SubmissionPayload schema: `null`, or
an object each of whose members names no field or suits the field it names. -/
def acceptsSubmissionPayload (fold : GoString → GoString) : Json → Bool
  | .null => true
  | .object ms => ms.all (acceptsSubmissionPayloadMember fold)
  | _ => false

/-- A payload that is valid JSON for the SubmissionPayload schema. -/
def validSubmissionText (ext : Externals) (payload : GoString) : Prop :=
  ∃ doc, ext.jsonValue payload = some doc ∧ acceptsSubmissionPayload ext.foldName doc = true

/-- A submission document that reports a double spend: one conflicting
transaction of 191 bytes. -/
def doubleSpendDocument : Json :=
  .object [
    (str "returnResult", .string (str "failure")),
    (str "conflictedWith", .array [
      .object [
        (str "txid", .string (str "6bdbcfab")),
        (str "size", .number 191),
        (str "hex", .string (str "0100000001"))]]),
    (str "txid", .string (str "e7b3eefa"))]

/-- A provider whose payload is `doubleSpendDocument`. -/
def doubleSpendProvider : Externals :=
  exampleExternals exampleResponse (exampleEnvelope (str "(double spend)")) none
    (some doubleSpendDocument)

/-! ## Well-formed values and documents -/

/-- A `ConflictedWith` a JSON document can stand for: its strings are valid
UTF-8 and its size is within the range of `int`. -/
def ConflictedWith.wellFormed (c : ConflictedWith) : Bool :=
  validString c.Hex && fitsInt intSize c.Size && validString c.TxID

/-- A slice of pointers to well-formed `ConflictedWith`s. -/
def wellFormedConflicts : Option (List (Option ConflictedWith)) → Bool
  | none => true
  | some cs => cs.all (fun c =>
      match c with
      | none => true
      | some c => c.wellFormed)

/-- A `SubmissionPayload` whose strings are valid UTF-8 and whose integers are
within the range of their types. -/
def SubmissionPayload.wellFormed (p : SubmissionPayload) : Bool :=
  validString p.APIVersion && wellFormedConflicts p.ConflictedWith &&
  validString p.CurrentHighestBlockHash && fitsInt 64 p.CurrentHighestBlockHeight &&
  validString p.MinerID && validString p.ResultDescription && validString p.ReturnResult &&
  validString p.Timestamp && validString p.TxID && fitsInt 64 p.TxSecondMempoolExpiry

/-- A `Callback` whose strings are valid UTF-8 and whose height is within the
range of `uint64`. -/
def Callback.wellFormed (c : Callback) : Bool :=
  validString c.APIVersion && validString c.BlockHash && fitsUint 64 c.BlockHeight &&
  validString c.CallbackPayload && validString c.CallbackReason &&
  validString c.CallbackTxID && validString c.MinerID && validString c.Timestamp

/-- The value a JSON object holds under `key`: that of its first member with
the key. -/
def Json.member (key : GoString) : Json → Option Json
  | .object ms => (ms.find? (fun m => m.1 == key)).map (fun m => m.2)
  | _ => none

/-- The types of the fields of the structs of the file: `string`, a signed or
an unsigned integer of some width, and `[]*ConflictedWith`. -/
inductive FieldKind where
  | string
  | int (bits : Nat)
  | uint (bits : Nat)
  | conflicts
  deriving DecidableEq

/-- The types of the fields of `ConflictedWith`, in declaration order. -/
def ConflictedWith.kinds : List FieldKind := [.string, .int intSize, .string]

/-- The types of the fields of `SubmissionPayload`, in declaration order. -/
def SubmissionPayload.kinds : List FieldKind :=
  [.string, .conflicts, .string, .int 64, .string, .string, .string, .string, .string, .int 64]

/-- The types of the fields of `Callback`, in declaration order. -/
def Callback.kinds : List FieldKind :=
  [.string, .string, .uint 64, .string, .string, .string, .string, .string]

/-- The type of the field whose name is `key`. -/
def kindOf (fields : List GoString) (kinds : List FieldKind) (key : GoString) :
    Option FieldKind :=
  match indexWhere (fun n => n == key) fields with
  | some i => kinds[i]?
  | none => none

/-- A JSON value written for a field of a scalar type: a string of valid UTF-8
for a `string`, an integer literal within the range of the type for an
integer. -/
def isScalarOf : FieldKind → Json → Bool
  | .string, .string s => validString s
  | .int bits, .number n => fitsInt bits n
  | .uint bits, .number n => fitsUint bits n
  | _, _ => false

/-- Whether a JSON value is `null`. -/
def Json.isNull : Json → Bool
  | .null => true
  | _ => false

/-- The value `json.Marshal` writes for a field that holds the zero value of
its type: the empty string, 0, and `null` for the nil slice. -/
def zeroValue : FieldKind → Json
  | .string => .string []
  | .int _ => .number 0
  | .uint _ => .number 0
  | .conflicts => .null

/-- A well-formed document of a struct: an object in which no key of the
struct comes twice, a key of the struct holds `null` or a value `good` for the
type of the field, and any other key names no field of the struct, not even
under the case folding `fold` of `encoding/json`. Keys of the struct may be
missing, and the members come in any order. -/
def isDocumentWith (fold : GoString → GoString) (good : FieldKind → Json → Bool)
    (fields : List GoString) (kinds : List FieldKind) : Json → Bool
  | .object ms =>
    decide (((ms.map Prod.fst).filter (fun key => decide (key ∈ fields))).Nodup) &&
    ms.all (fun m =>
      match kindOf fields kinds m.1 with
      | some k => m.2.isNull || good k m.2
      | none => (findField fold fields m.1).isNone)
  | _ => false

/-- An entry of a conflictedWith array: `null` or a well-formed document of
`ConflictedWith`. -/
def isConflictedWithEntry (fold : GoString → GoString) : Json → Bool
  | .null => true
  | j => isDocumentWith fold isScalarOf ConflictedWith.fields ConflictedWith.kinds j

/-- A JSON value written for a field: for `[]*ConflictedWith`, `null` or an
array of entries. -/
def isValueOf (fold : GoString → GoString) : FieldKind → Json → Bool
  | .conflicts, .null => true
  | .conflicts, .array elems => elems.all (isConflictedWithEntry fold)
  | .conflicts, _ => false
  | k, j => isScalarOf k j

/-- A well-formed SubmissionPayload document. -/
def isSubmissionDocument (fold : GoString → GoString) : Json → Bool :=
  isDocumentWith fold (isValueOf fold) SubmissionPayload.fields SubmissionPayload.kinds

/-- A well-formed Callback document. -/
def isCallbackDocument (fold : GoString → GoString) : Json → Bool :=
  isDocumentWith fold (isValueOf fold) Callback.fields Callback.kinds

/-- The value `x` an encoding holds under a key, against what a document holds
under that key: the `same` value when the document holds a value that is not
`null`, the zero value of the field when the document holds `null` or lacks
the key. -/
def sameOrZero (same : FieldKind → Json → Json → Prop) (k : FieldKind) (x : Json) :
    Option Json → Prop
  | none => x = zeroValue k
  | some .null => x = zeroValue k
  | some y => same k x y

/-- The encoding `a` of a struct holds every key of the struct, and under each
key the `same` value as the document `b`, or the zero value of the field where
`b` holds `null` or lacks the key. -/
def sameDocumentWith (same : FieldKind → Json → Json → Prop) (fields : List GoString)
    (kinds : List FieldKind) (a b : Json) : Prop :=
  ∀ key ∈ fields, ∃ k x,
    kindOf fields kinds key = some k ∧ a.member key = some x ∧
    sameOrZero same k x (b.member key)

/-- Two entries of a conflictedWith array hold the same values: both are
`null`, or neither is and the first holds under hex, size and txid the values
of the second, the zero value where the second holds `null` or lacks the
key. -/
def sameEntry (a b : Json) : Prop :=
  (a = .null ∧ b = .null) ∨
  (a ≠ .null ∧ b ≠ .null ∧
    sameDocumentWith (fun _ x y => x = y) ConflictedWith.fields ConflictedWith.kinds a b)

/-- Two values of a field are the same: equal for a scalar; for a
`[]*ConflictedWith` both `null`, or arrays of the same length whose entries
are the same one by one. -/
def sameValue : FieldKind → Json → Json → Prop
  | .conflicts, a, b =>
    (a = .null ∧ b = .null) ∨
    ∃ xs ys, a = .array xs ∧ b = .array ys ∧ List.Forall₂ sameEntry xs ys
  | _, a, b => a = b

/-- The encoding `a` of a struct against the document `b` it was decoded
from: every key of the struct is in `a`, with the same value as in `b`, or
with the zero value of the field where `b` holds `null` or lacks the key. -/
def sameDocument (fields : List GoString) (kinds : List FieldKind) (a b : Json) : Prop :=
  sameDocumentWith sameValue fields kinds a b

/-- The values `json.Marshal` writes for the fields of a `ConflictedWith`, in
declaration order. -/
def ConflictedWith.values (c : ConflictedWith) : List Json :=
  [.string (toValidUTF8 c.Hex), .number c.Size, .string (toValidUTF8 c.TxID)]

/-- The values `json.Marshal` writes for the fields of a `SubmissionPayload`,
in declaration order. -/
def SubmissionPayload.values (p : SubmissionPayload) : List Json :=
  [.string (toValidUTF8 p.APIVersion),
   marshalConflictedWithSlice p.ConflictedWith,
   .string (toValidUTF8 p.CurrentHighestBlockHash),
   .number p.CurrentHighestBlockHeight,
   .string (toValidUTF8 p.MinerID),
   .string (toValidUTF8 p.ResultDescription),
   .string (toValidUTF8 p.ReturnResult),
   .string (toValidUTF8 p.Timestamp),
   .string (toValidUTF8 p.TxID),
   .number p.TxSecondMempoolExpiry]

/-- The values `json.Marshal` writes for the fields of a `Callback`, in
declaration order. -/
def Callback.values (c : Callback) : List Json :=
  [.string (toValidUTF8 c.APIVersion),
   .string (toValidUTF8 c.BlockHash),
   .number c.BlockHeight,
   .string (toValidUTF8 c.CallbackPayload),
   .string (toValidUTF8 c.CallbackReason),
   .string (toValidUTF8 c.CallbackTxID),
   .string (toValidUTF8 c.MinerID),
   .string (toValidUTF8 c.Timestamp)]

/-- A `SubmissionPayload` whose `APIVersion` is the single byte FF, which is
not valid UTF-8. -/
def invalidTextPayload : SubmissionPayload :=
  { SubmissionPayload.zero with APIVersion := [0xFF] }

/-- The payload of the example response of `submit_transaction.go`; it has no
member conflictedWith. -/
def exampleSubmissionDocument : Json :=
  .object [
    (str "apiVersion", .string (str "0.1.0")),
    (str "timestamp", .string (str "2020-01-15T11:40:29.826Z")),
    (str "txid",
      .string (str "6bdbcfab0526d30e8d68279f79dff61fb4026ace8b7b32789af016336e54f2f0")),
    (str "returnResult", .string (str "success")),
    (str "resultDescription", .string (str "")),
    (str "minerId",
      .string (str "03fcfcfcd0841b0a6ed2057fa8ed404788de47ceb3390c53e79c4ecd1e05819031")),
    (str "currentHighestBlockHash",
      .string (str "71a7374389afaec80fcabbbf08dcd82d392cf68c9a13fe29da1a0c853facef01")),
    (str "currentHighestBlockHeight", .number 207),
    (str "txSecondMempoolExpiry", .number 0)]

/-- A document that gives the key txid twice. -/
def duplicateKeyDocument : Json :=
  .object [(str "txid", .string (str "6bdbcfab")), (str "txid", .string (str "e7b3eefa"))]

/-- The example callback of `submit_transaction.go`, with a short payload. -/
def exampleCallback : Callback :=
  { APIVersion := str "1.3.0"
    BlockHash := str "2ad8af91739e9dc41ea155a9ab4b14ab88fe2a0934f14420139867babf5953c4"
    BlockHeight := 105
    CallbackPayload := str "\x7b\"index\":1\x7d"
    CallbackReason := str "merkleProof"
    CallbackTxID := str "e7b3eefab33072e62283255f193ef5d22f26bbcfc0a80688fe2cc5178a32dda6"
    MinerID := str "030d1fe5c1b560efe196ba40540ce9017c20daa9504c4c4cec6184fc702d9f274e"
    Timestamp := str "2021-04-30T08:06:13.4129624Z" }

/-! # Lemmas and theorems -/

/-! ## The submission pipeline -/

theorem submitTransaction_eq (ext : Externals) (ctx : Context) (client : Client) (miner : Miner)
    (tx : Option Transaction) :
    submitTransaction ext ctx client miner tx =
      ⟨some { Miner := some miner,
              Response := ext.httpRequest ctx client (submissionRequest ext miner tx) },
        none,
        [.jsonMarshal tx, .httpRequest ctx client (submissionRequest ext miner tx)]⟩ := rfl

theorem parseSubmission_calls_not_transport (ext : Externals) (i : internalResult) :
    (parseSubmission ext i).calls.filter Call.isTransport = [] := by
  unfold parseSubmission
  dsimp only
  split
  · rfl
  · split <;> rfl

theorem SubmitTransaction_cases (ext : Externals) (c : Client) (ctx : Context) (m : Miner)
    (tx : Option Transaction) :
    SubmitTransaction ext c ctx (some m) tx =
      let sent := submitTransaction ext ctx c m tx
      let result : internalResult :=
        { Miner := some m, Response := ext.httpRequest ctx c (submissionRequest ext m tx) }
      let parsed := parseSubmission ext result
      match result.Response.Error with
      | some err => ⟨none, some err, sent.calls⟩
      | none =>
        match parsed.err with
        | some err => ⟨none, some err, sent.calls ++ parsed.calls⟩
        | none =>
          match parsed.value.Results with
          | none => ⟨none, some (failedGettingSubmission m), sent.calls ++ parsed.calls⟩
          | some results =>
            if results.ReturnResult.length = 0 then
              ⟨none, some (failedGettingSubmission m), sent.calls ++ parsed.calls⟩
            else
              ⟨some parsed.value, none, sent.calls ++ parsed.calls⟩ := rfl

theorem SubmitTransaction_transport_calls (ext : Externals) (c : Client) (ctx : Context) (m : Miner)
    (tx : Option Transaction) :
    (SubmitTransaction ext c ctx (some m) tx).calls.filter Call.isTransport =
      [.httpRequest ctx c (submissionRequest ext m tx)] := by
  have hp := parseSubmission_calls_not_transport ext
    { Miner := some m, Response := ext.httpRequest ctx c (submissionRequest ext m tx) }
  rw [SubmitTransaction_cases]
  simp only [submitTransaction_eq]
  split
  · rfl
  · split
    · simp [List.filter_append, hp, Call.isTransport, List.filter]
    · split
      · simp [List.filter_append, hp, Call.isTransport, List.filter]
      · split <;> simp [List.filter_append, hp, Call.isTransport, List.filter]

/-- C1: called with a nil miner, SubmitTransaction returns a nil response and
the error "miner was nil", and makes no call at all: neither the
serialization that opens submitTransaction nor httpRequest is reached. -/
theorem SubmitTransaction_nil_miner (ext : Externals) (c : Client) (ctx : Context)
    (tx : Option Transaction) :
    (SubmitTransaction ext c ctx none tx).value = none ∧
    (SubmitTransaction ext c ctx none tx).err = some (.errorString (str "miner was nil")) ∧
    (SubmitTransaction ext c ctx none tx).calls = [] := ⟨rfl, rfl, rfl⟩

/-- C2: for a miner that is not nil, when the transport and the parse succeed
and the decoded Results is nil or has a ReturnResult of length 0,
SubmitTransaction returns a nil response and the error "failed getting
submission response from: " followed by the name of the miner; a response
returned with a nil error has Results that is not nil with a ReturnResult that
is not empty; and on every path, whatever the miner, exactly one of the
response and the error is not nil. -/
theorem SubmitTransaction_empty_result (ext : Externals) (c : Client) (ctx : Context)
    (miner : Miner) (tx : Option Transaction) :
    (∀ result : internalResult,
        (submitTransaction ext ctx c miner tx).value = some result →
        result.Response.Error = none →
        (parseSubmission ext result).err = none →
        ((parseSubmission ext result).value.Results = none ∨
          ∃ results, (parseSubmission ext result).value.Results = some results ∧
            results.ReturnResult.length = 0) →
        (SubmitTransaction ext c ctx (some miner) tx).value = none ∧
        (SubmitTransaction ext c ctx (some miner) tx).err =
          some (.errorString (str "failed getting submission response from: " ++ miner.Name))) ∧
    ((SubmitTransaction ext c ctx (some miner) tx).err = none →
        ∃ response results,
          (SubmitTransaction ext c ctx (some miner) tx).value = some response ∧
          response.Results = some results ∧ results.ReturnResult.length ≠ 0) ∧
    (∀ m : Option Miner,
        ((SubmitTransaction ext c ctx m tx).value = none ∧
            (SubmitTransaction ext c ctx m tx).err ≠ none) ∨
        ((SubmitTransaction ext c ctx m tx).value ≠ none ∧
            (SubmitTransaction ext c ctx m tx).err = none)) := by
  refine ⟨?_, ?_, ?_⟩
  · intro result hs he hp hr
    rw [submitTransaction_eq] at hs
    simp only [Option.some.injEq] at hs
    subst hs
    rw [SubmitTransaction_cases]
    dsimp only at he hp hr ⊢
    rw [he]
    dsimp only
    rw [hp]
    dsimp only
    rcases hr with hr | ⟨results, hr, hl⟩
    · rw [hr]; exact ⟨rfl, rfl⟩
    · rw [hr]; dsimp only; rw [if_pos hl]; exact ⟨rfl, rfl⟩
  · rw [SubmitTransaction_cases]
    intro h
    revert h
    simp only
    split
    · intro h; cases h
    · split
      · intro h; cases h
      · split
        · intro h; cases h
        · rename_i results hres
          split
          · intro h; cases h
          · rename_i hlen
            intro _
            exact ⟨_, results, rfl, hres, hlen⟩
  · intro m
    cases m with
    | none => left; exact ⟨rfl, by simp [SubmitTransaction]⟩
    | some m =>
      rw [SubmitTransaction_cases]
      simp only
      split
      · left; exact ⟨rfl, by simp⟩
      · split
        · left; exact ⟨rfl, by simp⟩
        · split
          · left; exact ⟨rfl, by simp⟩
          · split
            · left; exact ⟨rfl, by simp⟩
            · right; exact ⟨by simp, rfl⟩

/-- C2 at a concrete response: the payload of the provider holds an empty
returnResult, and the caller gets the error that names the miner. -/
theorem SubmitTransaction_empty_result_witness :
    (SubmitTransaction silentProvider ⟨0⟩ ⟨0⟩ (some exampleMiner) none).value = none ∧
    (SubmitTransaction silentProvider ⟨0⟩ ⟨0⟩ (some exampleMiner) none).err =
      some (.errorString (str "failed getting submission response from: " ++ MinerTaal)) :=
  (SubmitTransaction_empty_result silentProvider ⟨0⟩ ⟨0⟩ exampleMiner none).1
    { Miner := some exampleMiner, Response := exampleResponse } rfl rfl (by decide)
    (Or.inr ⟨{ SubmissionPayload.zero with ReturnResult := [] }, by decide, rfl⟩)

/-- C3: for a miner that is not nil, when the response of the transport carries
an error E, SubmitTransaction returns a nil response and exactly E, having
called nothing after httpRequest (the body is not parsed); when the transport
error is nil and parseSubmission returns the error P, SubmitTransaction returns
a nil response and exactly P. -/
theorem SubmitTransaction_error_unchanged (ext : Externals) (c : Client) (ctx : Context)
    (miner : Miner) (tx : Option Transaction) :
    (∀ E : Error,
        (ext.httpRequest ctx c (submissionRequest ext miner tx)).Error = some E →
        (SubmitTransaction ext c ctx (some miner) tx).value = none ∧
        (SubmitTransaction ext c ctx (some miner) tx).err = some E ∧
        (SubmitTransaction ext c ctx (some miner) tx).calls =
          [.jsonMarshal tx, .httpRequest ctx c (submissionRequest ext miner tx)]) ∧
    (∀ P : Error,
        (ext.httpRequest ctx c (submissionRequest ext miner tx)).Error = none →
        (parseSubmission ext
          { Miner := some miner
            Response := ext.httpRequest ctx c (submissionRequest ext miner tx) }).err = some P →
        (SubmitTransaction ext c ctx (some miner) tx).value = none ∧
        (SubmitTransaction ext c ctx (some miner) tx).err = some P) := by
  refine ⟨?_, ?_⟩
  · intro E hE
    rw [SubmitTransaction_cases]
    dsimp only
    rw [hE]
    exact ⟨rfl, rfl, rfl⟩
  · intro P hE hP
    rw [SubmitTransaction_cases]
    dsimp only
    rw [hE]
    dsimp only
    rw [hP]
    exact ⟨rfl, rfl⟩

/-- C3 at a concrete response: the error of the transport reaches the caller
as it is. -/
theorem SubmitTransaction_error_unchanged_witness :
    (SubmitTransaction unreachableProvider ⟨0⟩ ⟨0⟩ (some exampleMiner) none).err =
      some (.foreign 7) :=
  ((SubmitTransaction_error_unchanged unreachableProvider ⟨0⟩ ⟨0⟩ exampleMiner none).1
    (.foreign 7) rfl).2.1

/-- C5: the JSON serialization of a transaction is `null` for the nil pointer
and otherwise the object of its fields in declaration order, each under the
key of its tag, a field tagged omitempty left out when it is empty or false,
rawtx always written; it never fails. For a miner that is not nil and every
transaction, submitTransaction returns no error and a result attributed to
that miner, and makes exactly one transport call: a POST to the URL of the
miner followed by "/mapi/tx", with the token of the miner and the bytes of
that serialization as the body. -/
theorem submitTransaction_one_post (ext : Externals) (ctx : Context) (client : Client)
    (miner : Miner) (tx : Option Transaction) :
    marshalTransaction tx =
      (match tx with
      | none => Json.null
      | some t => Json.object (
          (if t.CallBackEncryption = [] then []
            else [(str "callBackEncryption", Json.string (toValidUTF8 t.CallBackEncryption))]) ++
          (if t.CallBackToken = [] then []
            else [(str "callBackToken", Json.string (toValidUTF8 t.CallBackToken))]) ++
          (if t.CallBackURL = [] then []
            else [(str "callBackUrl", Json.string (toValidUTF8 t.CallBackURL))]) ++
          (if t.DsCheck = true then [(str "dsCheck", Json.bool true)] else []) ++
          (if t.MerkleFormat = [] then []
            else [(str "merkleFormat", Json.string (toValidUTF8 t.MerkleFormat))]) ++
          (if t.MerkleProof = true then [(str "merkleProof", Json.bool true)] else []) ++
          [(str "rawtx", Json.string (toValidUTF8 t.RawTx))])) ∧
    jsonMarshalTransaction ext tx = (ext.jsonBytes (marshalTransaction tx), none) ∧
    (submitTransaction ext ctx client miner tx).err = none ∧
    (submitTransaction ext ctx client miner tx).value =
      some { Miner := some miner
             Response := ext.httpRequest ctx client
               { Method := str "POST"
                 URL := miner.URL ++ str "/mapi/tx"
                 Token := miner.Token
                 Data := ext.jsonBytes (marshalTransaction tx) } } ∧
    (submitTransaction ext ctx client miner tx).calls.filter Call.isTransport =
      [.httpRequest ctx client
        { Method := str "POST"
          URL := miner.URL ++ str "/mapi/tx"
          Token := miner.Token
          Data := ext.jsonBytes (marshalTransaction tx) }] ∧
    routeSubmitTx = str "/mapi/tx" := by
  refine ⟨?_, rfl, rfl, rfl, rfl, rfl⟩
  cases tx with
  | none => rfl
  | some t =>
    have hs : ∀ (key s : GoString), omitEmptyString key s =
        if s = [] then [] else [(key, Json.string (toValidUTF8 s))] := by
      intro key s
      cases s <;> rfl
    have hb : ∀ (key : GoString) (b : Bool), omitEmptyBool key b =
        if b = true then [(key, Json.bool true)] else [] := by
      intro key b
      cases b <;> rfl
    simp only [marshalTransaction, hs, hb]

/-- C5 at a concrete transaction, the example of the source with a callback
and a merkle proof in TSC format: the fields left empty are not written. -/
theorem submitTransaction_one_post_witness :
    marshalTransaction (some exampleTransaction) =
      .object [
        (str "callBackUrl", .string (str "https://your.service.callback/endpoint")),
        (str "dsCheck", .bool true),
        (str "merkleFormat", .string (str "TSC")),
        (str "merkleProof", .bool true),
        (str "rawtx", .string (str "0100000001"))] :=
  (submitTransaction_one_post acceptingProvider ⟨0⟩ ⟨0⟩ exampleMiner
    (some exampleTransaction)).1.trans rfl

/-- C6, the claim fails: sent to a provider that accepts it, a nil transaction
for the miner "Taal" is serialized as `null` and posted, and SubmitTransaction
returns no error. -/
theorem SubmitTransaction_nil_transaction_posted :
    (SubmitTransaction acceptingProvider ⟨0⟩ ⟨0⟩ (some exampleMiner) none).err = none ∧
    (SubmitTransaction acceptingProvider ⟨0⟩ ⟨0⟩ (some exampleMiner) none).calls.filter
        Call.isTransport =
      [.httpRequest ⟨0⟩ ⟨0⟩
        { Method := str "POST"
          URL := str "https://merchantapi.taal.com/mapi/tx"
          Token := []
          Data := str "null" }] := by
  decide

/-- C6 as amended: SubmitTransaction fails fast, with an error and no call,
when the miner is nil; the transaction is not checked: for a miner that is not
nil and a nil transaction it makes exactly one transport call, whose body is
the JSON serialization of the nil pointer. -/
theorem SubmitTransaction_validates_miner_only (ext : Externals) (c : Client) (ctx : Context) :
    (∀ tx : Option Transaction,
        (SubmitTransaction ext c ctx none tx).err ≠ none ∧
        (SubmitTransaction ext c ctx none tx).calls = []) ∧
    (∀ miner : Miner,
        (SubmitTransaction ext c ctx (some miner) none).calls.filter Call.isTransport =
          [.httpRequest ctx c
            { Method := str "POST"
              URL := miner.URL ++ str "/mapi/tx"
              Token := miner.Token
              Data := ext.jsonBytes .null }]) := by
  refine ⟨fun tx => ⟨by simp [SubmitTransaction], rfl⟩, fun miner => ?_⟩
  exact SubmitTransaction_transport_calls ext c ctx miner none

/-! ## The known miners -/

/-- C9, the claim fails: the entries "Taal" and "Mempool" of KnownMiners carry
the same miner_id. -/
theorem KnownMiners_shared_miner_id :
    ¬ (∀ i j : Fin KnownMiners.length, knownMinerID i = knownMinerID j → i = j) := by
  decide

/-- C9 as amended: the four entries of KnownMiners are named Taal, Mempool,
Matterpool and GorillaPool and no two entries share a name, so a name selects
at most one provider; two different entries share a miner_id only when they
are the entries named Taal and Mempool. -/
theorem KnownMiners_names_unique :
    KnownMiners.length = 4 ∧
    (List.finRange KnownMiners.length).map knownMinerName =
      [some MinerTaal, some MinerMempool, some MinerMatterpool, some MinerGorillaPool] ∧
    (∀ i j : Fin KnownMiners.length, knownMinerName i = knownMinerName j → i = j) ∧
    (∀ i j : Fin KnownMiners.length, knownMinerID i = knownMinerID j → i ≠ j →
      (knownMinerName i = some MinerTaal ∧ knownMinerName j = some MinerMempool) ∨
      (knownMinerName i = some MinerMempool ∧ knownMinerName j = some MinerTaal)) := by
  refine ⟨by decide, by decide, by decide, by decide⟩

/-! ## The race for the fastest quote -/

theorem raceFrom_winner {α : Type} (deadline : Nat) (c : Completion α) (payload : α)
    (hc : c.classification = .operationResult payload) (ht : c.latency < deadline) :
    ∀ (arrivals failures : List (Completion α)), c ∈ arrivals →
      (∀ x ∈ arrivals, x ≠ c → ∀ p, x.classification ≠ .operationResult p) →
      raceFrom deadline failures arrivals = .winner c.provider payload := by
  intro arrivals
  induction arrivals with
  | nil => intro _ h; cases h
  | cons x rest ih =>
    intro failures hmem hothers
    by_cases hx : x = c
    · subst hx
      simp [raceFrom, hc, ht]
    · have hrest : c ∈ rest := by
        rcases List.mem_cons.1 hmem with h | h
        · exact absurd h.symm hx
        · exact h
      have hxfail := hothers x (List.mem_cons_self _ _) hx
      have ih' := ih (failures ++ [x]) hrest
        (fun y hy hne => hothers y (List.mem_cons_of_mem _ hy) hne)
      unfold raceFrom
      split
      · rename_i p hp
        exact absurd hp (hxfail p)
      · exact ih'

/-- C10: three providers race; A fails at transport, B returns an envelope
whose returnResult is empty, C returns a result before the deadline. In
whatever order the three completions arrive, the race returns the result of C
attributed to C, and this is the only winner it reports. The default deadline,
defaultFastQuoteTimeout, is 20 seconds. -/
theorem fastestQuote_valid_provider_wins {α : Type} (deadline : Nat) (A B C : Miner)
    (latencyA latencyB latencyC : Nat) (result : α) (arrivals : List (Completion α))
    (hC : latencyC < deadline)
    (horder : arrivals.Perm
      [⟨A, latencyA, .transportError⟩, ⟨B, latencyB, .emptyResult⟩,
       ⟨C, latencyC, .operationResult result⟩]) :
    fastestQuote deadline arrivals = .winner C result ∧
    (∀ provider payload, fastestQuote deadline arrivals = .winner provider payload →
      provider = C ∧ payload = result) ∧
    defaultFastQuoteTimeout = 20 * 1000000000 := by
  have hwin : fastestQuote deadline arrivals = .winner C result := by
    refine raceFrom_winner deadline ⟨C, latencyC, .operationResult result⟩ result rfl hC
      arrivals [] (horder.symm.subset (by simp)) ?_
    intro x hx hne p
    have hx' := horder.subset hx
    simp only [List.mem_cons, List.mem_singleton, List.not_mem_nil, or_false] at hx'
    rcases hx' with h | h | h
    · subst h; simp
    · subst h; simp
    · exact absurd h hne
  refine ⟨hwin, ?_, rfl⟩
  intro provider payload h
  rw [hwin] at h
  cases h
  exact ⟨rfl, rfl⟩

/-- C10 at a concrete race: B answers first, then C after 3 seconds, then A;
the deadline is the default one. -/
theorem fastestQuote_valid_provider_wins_witness :
    (3 * second < defaultFastQuoteTimeout) ∧
    fastestQuote defaultFastQuoteTimeout
      [⟨exampleMiner, 1 * second, .emptyResult⟩,
       ⟨{ exampleMiner with Name := MinerGorillaPool }, 3 * second,
         .operationResult (500 : Nat)⟩,
       ⟨{ exampleMiner with Name := MinerMatterpool }, 4 * second, .transportError⟩] =
      .winner { exampleMiner with Name := MinerGorillaPool } 500 :=
  ⟨by decide,
   (fastestQuote_valid_provider_wins defaultFastQuoteTimeout
      { exampleMiner with Name := MinerMatterpool } exampleMiner
      { exampleMiner with Name := MinerGorillaPool }
      (4 * second) (1 * second) (3 * second) (500 : Nat) _ (by decide)
      (by decide)).1⟩

/-! ## The errors of `json.Unmarshal` -/

theorem firstError_eq_none (a b : Option Error) :
    firstError a b = none ↔ a = none ∧ b = none := by
  cases a <;> simp [firstError]

theorem unmarshalMembers_err {α : Type} (set : α → GoString × Json → α × Option Error)
    (ok : GoString × Json → Bool) (h : ∀ v m, (set v m).2 = none ↔ ok m = true) :
    ∀ (ms : List (GoString × Json)) (v : α),
      (unmarshalMembers set v ms).2 = none ↔ ms.all ok = true := by
  intro ms
  induction ms with
  | nil => intro v; simp [unmarshalMembers]
  | cons m ms ih =>
    intro v
    simp only [unmarshalMembers, firstError_eq_none, h, ih, List.all_cons, Bool.and_eq_true]

theorem unmarshalString_err (cur : GoString) (j : Json) :
    (unmarshalString cur j).2 = none ↔ acceptsString j = true := by
  cases j <;> simp [unmarshalString, acceptsString]

theorem unmarshalInt_err (bits : Nat) (goType : GoString) (cur : Int) (j : Json) :
    (unmarshalInt bits goType cur j).2 = none ↔ acceptsInt bits j = true := by
  cases j <;> simp [unmarshalInt, acceptsInt]
  split <;> simp_all

theorem ConflictedWith_setMember_err (fold : GoString → GoString) (c : ConflictedWith)
    (m : GoString × Json) :
    (ConflictedWith.setMember fold c m).2 = none ↔ acceptsConflictedWithMember fold m = true := by
  unfold ConflictedWith.setMember acceptsConflictedWithMember
  generalize findField fold ConflictedWith.fields m.1 = r
  split <;>
    first
    | exact unmarshalString_err _ _
    | exact unmarshalInt_err _ _ _ _
    | exact Iff.intro (fun _ => rfl) (fun _ => rfl)

theorem unmarshalConflictedWithPtr_err (fold : GoString → GoString) (p : Option ConflictedWith)
    (j : Json) :
    (unmarshalConflictedWithPtr fold p j).2 = none ↔ acceptsConflictedWith fold j = true := by
  cases j with
  | object ms => exact unmarshalMembers_err _ _ (ConflictedWith_setMember_err fold) _ _
  | _ => simp [unmarshalConflictedWithPtr, unmarshalConflictedWith, acceptsConflictedWith]

theorem unmarshalElems_err (fold : GoString → GoString) :
    ∀ (elems : List Json) (old : List (Option ConflictedWith)),
      (unmarshalElems fold old elems).2 = none ↔
        elems.all (acceptsConflictedWith fold) = true := by
  intro elems
  induction elems with
  | nil => intro old; simp [unmarshalElems]
  | cons j js ih =>
    intro old
    simp only [unmarshalElems, firstError_eq_none, unmarshalConflictedWithPtr_err, ih,
      List.all_cons, Bool.and_eq_true]

theorem unmarshalConflictedWithSlice_err (fold : GoString → GoString)
    (cur : Option (List (Option ConflictedWith))) (j : Json) :
    (unmarshalConflictedWithSlice fold cur j).2 = none ↔
      acceptsConflictedWithSlice fold j = true := by
  cases j with
  | array elems => exact unmarshalElems_err fold _ _
  | _ => simp [unmarshalConflictedWithSlice, acceptsConflictedWithSlice]

theorem SubmissionPayload_setMember_err (fold : GoString → GoString) (p : SubmissionPayload)
    (m : GoString × Json) :
    (SubmissionPayload.setMember fold p m).2 = none ↔
      acceptsSubmissionPayloadMember fold m = true := by
  unfold SubmissionPayload.setMember acceptsSubmissionPayloadMember
  generalize findField fold SubmissionPayload.fields m.1 = r
  rcases r with _ | _ | _ | _ | _ | _ | _ | _ | _ | _ | _ | n <;>
    first
    | exact unmarshalString_err _ _
    | exact unmarshalInt_err _ _ _ _
    | exact unmarshalConflictedWithSlice_err _ _ _
    | exact Iff.intro (fun _ => rfl) (fun _ => rfl)

theorem unmarshalSubmissionPayloadPtr_err (fold : GoString → GoString)
    (p : Option SubmissionPayload) (j : Json) :
    (unmarshalSubmissionPayloadPtr fold p j).2 = none ↔
      acceptsSubmissionPayload fold j = true := by
  cases j with
  | object ms => exact unmarshalMembers_err _ _ (SubmissionPayload_setMember_err fold) _ _
  | _ =>
    simp [unmarshalSubmissionPayloadPtr, unmarshalSubmissionPayload, acceptsSubmissionPayload]

theorem jsonUnmarshalResults_err (ext : Externals) (data : GoString)
    (results : Option SubmissionPayload) :
    (jsonUnmarshalResults ext data results).2 = none ↔ validSubmissionText ext data := by
  unfold jsonUnmarshalResults validSubmissionText
  cases h : ext.jsonValue data with
  | none => simp
  | some doc => simp [unmarshalSubmissionPayloadPtr_err]

/-- C4: when `process` returns no error, parseSubmission returns no error and
a nil Results for an empty payload, and for a payload that is not empty it
returns an error exactly when the payload is not valid JSON for the
SubmissionPayload schema; `json.Unmarshal` is called if and only if `process`
returned no error and the payload is not empty. -/
theorem parseSubmission_payload (ext : Externals) (i : internalResult) :
    ((ext.process i.Miner i.Response.BodyContents).2 = none →
      (ext.process i.Miner i.Response.BodyContents).1.Payload = [] →
      (parseSubmission ext i).err = none ∧ (parseSubmission ext i).value.Results = none) ∧
    ((ext.process i.Miner i.Response.BodyContents).2 = none →
      (ext.process i.Miner i.Response.BodyContents).1.Payload ≠ [] →
      ((parseSubmission ext i).err ≠ none ↔
        ¬ validSubmissionText ext (ext.process i.Miner i.Response.BodyContents).1.Payload)) ∧
    ((∃ data, Call.jsonUnmarshal data ∈ (parseSubmission ext i).calls) ↔
      ((ext.process i.Miner i.Response.BodyContents).2 = none ∧
        (ext.process i.Miner i.Response.BodyContents).1.Payload ≠ [])) := by
  unfold parseSubmission
  dsimp only
  cases hp : (ext.process i.Miner i.Response.BodyContents).2 with
  | some err => simp
  | none =>
    dsimp only
    by_cases hlen : (ext.process i.Miner i.Response.BodyContents).1.Payload = []
    · simp [hlen]
    · have hpos : (ext.process i.Miner i.Response.BodyContents).1.Payload.length > 0 :=
        List.length_pos.2 hlen
      rw [if_pos hpos]
      refine ⟨fun _ h => absurd h hlen, fun _ _ => ?_, ?_⟩
      · exact not_congr (jsonUnmarshalResults_err ext _ _)
      · simp [hlen]

/-- C4 at a concrete response: a payload that is not JSON gives a syntax error. -/
theorem parseSubmission_payload_witness :
    (parseSubmission
      (exampleExternals exampleResponse (exampleEnvelope (str "<html>")) none none)
      { Miner := some exampleMiner, Response := exampleResponse }).err ≠ none :=
  ((parseSubmission_payload
      (exampleExternals exampleResponse (exampleEnvelope (str "<html>")) none none)
      { Miner := some exampleMiner, Response := exampleResponse }).2.1 rfl (by decide)).2
    (by
      rintro ⟨doc, hdoc, _⟩
      simp [exampleExternals] at hdoc)

/-! ## The conflictedWith list -/

theorem findField_conflictedWith (fold : GoString → GoString) :
    findField fold SubmissionPayload.fields (str "conflictedWith") = some 1 := rfl

theorem findField_size (fold : GoString → GoString) :
    findField fold ConflictedWith.fields (str "size") = some 1 := rfl

theorem unmarshalMembers_append {α : Type} (set : α → GoString × Json → α × Option Error) :
    ∀ (a b : List (GoString × Json)) (v : α),
      (unmarshalMembers set v (a ++ b)).1 =
        (unmarshalMembers set (unmarshalMembers set v a).1 b).1 := by
  intro a
  induction a with
  | nil => intro b v; rfl
  | cons m ms ih => intro b v; exact ih b (set v m).1

theorem unmarshalMembers_frame {α γ : Type} (set : α → GoString × Json → α × Option Error)
    (π : α → γ) :
    ∀ (ms : List (GoString × Json)) (v : α),
      (∀ m ∈ ms, ∀ w, π (set w m).1 = π w) →
      π (unmarshalMembers set v ms).1 = π v := by
  intro ms
  induction ms with
  | nil => intro v _; rfl
  | cons m ms ih =>
    intro v h
    simp only [unmarshalMembers]
    rw [ih _ (fun m' hm' => h m' (List.mem_cons_of_mem _ hm'))]
    exact h m (List.mem_cons_self _ _) v

theorem SubmissionPayload_setMember_conflictedWith_frame (fold : GoString → GoString)
    (p : SubmissionPayload) (m : GoString × Json)
    (h : findField fold SubmissionPayload.fields m.1 ≠ some 1) :
    (SubmissionPayload.setMember fold p m).1.ConflictedWith = p.ConflictedWith := by
  unfold SubmissionPayload.setMember
  generalize findField fold SubmissionPayload.fields m.1 = r at h
  rcases r with _ | _ | _ | _ | _ | _ | _ | _ | _ | _ | _ | n <;>
    first
    | rfl
    | exact absurd rfl h

theorem unmarshalElems_nil (fold : GoString → GoString) :
    ∀ elems : List Json,
      (unmarshalElems fold [] elems).1 =
        elems.map (fun e => (unmarshalConflictedWithPtr fold none e).1) := by
  intro elems
  induction elems with
  | nil => rfl
  | cons e es ih =>
    simp only [unmarshalElems, List.map_cons, List.tail_nil, ih]
    rfl

theorem findField_hex (fold : GoString → GoString) :
    findField fold ConflictedWith.fields (str "hex") = some 0 := rfl

theorem findField_txid (fold : GoString → GoString) :
    findField fold ConflictedWith.fields (str "txid") = some 2 := rfl

theorem unmarshalConflictedWith_entry (fold : GoString → GoString) (c : ConflictedWith)
    (h t : GoString) (s : Int) (hs : fitsInt intSize s = true) :
    unmarshalConflictedWith fold c
        (.object [(str "hex", .string h), (str "size", .number s), (str "txid", .string t)]) =
      (⟨h, s, t⟩, none) := by
  simp [unmarshalConflictedWith, unmarshalMembers, ConflictedWith.setMember, findField_hex,
    findField_size, findField_txid, unmarshalString, unmarshalInt, hs, firstError]

theorem perm_two {α : Type} {p q : α} {l : List α} (h : l.Perm [p, q]) :
    l = [p, q] ∨ l = [q, p] := by
  have hlen := h.length_eq
  match l, hlen with
  | [y, z], _ =>
    have hy : y ∈ [p, q] := h.subset (List.mem_cons_self _ _)
    simp only [List.mem_cons, List.mem_singleton, List.not_mem_nil, or_false] at hy
    rcases hy with rfl | rfl
    · have := List.perm_singleton.1 (List.Perm.cons_inv h)
      left; simpa using this
    · have h2 : [y, z].Perm [y, p] := h.trans (List.Perm.swap _ _ _)
      have := List.perm_singleton.1 (List.Perm.cons_inv h2)
      right; simpa using this

theorem perm_three {α : Type} {a b c : α} {l : List α} (h : l.Perm [a, b, c]) :
    l = [a, b, c] ∨ l = [a, c, b] ∨ l = [b, a, c] ∨ l = [b, c, a] ∨ l = [c, a, b] ∨
      l = [c, b, a] := by
  have hlen := h.length_eq
  match l, hlen with
  | [x, y, z], _ =>
    have hx : x ∈ [a, b, c] := h.subset (List.mem_cons_self _ _)
    simp only [List.mem_cons, List.mem_singleton, List.not_mem_nil, or_false] at hx
    rcases hx with rfl | rfl | rfl
    · rcases perm_two (List.Perm.cons_inv h) with h2 | h2 <;> simp [h2]
    · have h1 : [x, y, z].Perm [x, a, c] := h.trans (List.Perm.swap _ _ _)
      rcases perm_two (List.Perm.cons_inv h1) with h2 | h2 <;> simp [h2]
    · have h1 : [x, y, z].Perm [x, a, b] :=
        h.trans ((List.Perm.cons a (List.Perm.swap x b [])).trans (List.Perm.swap x a [b]))
      rcases perm_two (List.Perm.cons_inv h1) with h2 | h2 <;> simp [h2]

theorem unmarshalConflictedWith_members (fold : GoString → GoString) (c : ConflictedWith)
    (members : List (GoString × Json)) (h t : GoString) (s : Int)
    (hp : members.Perm
      [(str "hex", .string h), (str "size", .number s), (str "txid", .string t)])
    (hs : fitsInt intSize s = true) :
    unmarshalConflictedWith fold c (.object members) = (⟨h, s, t⟩, none) := by
  rcases perm_three hp with rfl | rfl | rfl | rfl | rfl | rfl <;>
    simp only [unmarshalConflictedWith, unmarshalMembers, ConflictedWith.setMember,
      findField_hex, findField_size, findField_txid, unmarshalString, unmarshalInt, hs,
      if_true] <;>
    rfl

theorem acceptsConflictedWith_size (fold : GoString → GoString)
    (members : List (GoString × Json)) (h t : GoString) (s : Int)
    (hp : members.Perm
      [(str "hex", .string h), (str "size", .number s), (str "txid", .string t)])
    (ha : acceptsConflictedWith fold (.object members) = true) :
    fitsInt intSize s = true := by
  have hall : members.all (acceptsConflictedWithMember fold) = true := ha
  rw [List.all_eq_true] at hall
  have hm := hall (str "size", .number s) (hp.symm.subset (by simp))
  simpa [acceptsConflictedWithMember, findField_size, acceptsInt] using hm

/-- C7: the payload of the envelope is a valid submission document in which
the member conflictedWith, given once, is an array. Then parseSubmission
returns no error and Results whose ConflictedWith has one element for each
entry of the array, in the order of the array: a nil pointer for an entry that
is `null`, and for an entry that is an object with the members hex h, size s
and txid t, in whatever order they are written, a ConflictedWith with Hex h,
Size s and TxID t. When the array is one such entry, ConflictedWith has
length 1 and its element has Hex h, Size s and TxID t. -/
theorem parseSubmission_conflictedWith (ext : Externals) (i : internalResult)
    (before after : List (GoString × Json)) (entries : List Json)
    (hprocess : (ext.process i.Miner i.Response.BodyContents).2 = none)
    (hpayload : (ext.process i.Miner i.Response.BodyContents).1.Payload ≠ [])
    (hdoc : ext.jsonValue (ext.process i.Miner i.Response.BodyContents).1.Payload =
      some (.object (before ++ (str "conflictedWith", .array entries) :: after)))
    (hvalid : acceptsSubmissionPayload ext.foldName
      (.object (before ++ (str "conflictedWith", .array entries) :: after)) = true)
    (honce : ∀ m ∈ before ++ after,
      findField ext.foldName SubmissionPayload.fields m.1 ≠
        findField ext.foldName SubmissionPayload.fields (str "conflictedWith")) :
    (parseSubmission ext i).err = none ∧
    ∃ (results : SubmissionPayload) (conflicts : List (Option ConflictedWith)),
      (parseSubmission ext i).value.Results = some results ∧
      results.ConflictedWith = some conflicts ∧
      conflicts.length = entries.length ∧
      (∀ k : Nat, entries[k]? = some .null → conflicts[k]? = some none) ∧
      (∀ (k : Nat) members h s t, entries[k]? = some (.object members) →
        members.Perm
          [(str "hex", .string h), (str "size", .number s), (str "txid", .string t)] →
        conflicts[k]? = some (some ⟨h, s, t⟩)) ∧
      (∀ members h s t, entries = [.object members] →
        members.Perm
          [(str "hex", .string h), (str "size", .number s), (str "txid", .string t)] →
        conflicts = [some ⟨h, s, t⟩]) := by
  rw [findField_conflictedWith] at honce
  have hpos : (ext.process i.Miner i.Response.BodyContents).1.Payload.length > 0 :=
    List.length_pos.2 hpayload
  have herr := (unmarshalSubmissionPayloadPtr_err ext.foldName none _).2 hvalid
  have hentries : ∀ e ∈ entries, acceptsConflictedWith ext.foldName e = true := by
    have hall : (before ++ (str "conflictedWith", Json.array entries) :: after).all
        (acceptsSubmissionPayloadMember ext.foldName) = true := hvalid
    rw [List.all_eq_true] at hall
    have hm := hall (str "conflictedWith", .array entries) (by simp)
    simpa [acceptsSubmissionPayloadMember, findField_conflictedWith,
      acceptsConflictedWithSlice] using hm
  have hfield :
      (unmarshalMembers (SubmissionPayload.setMember ext.foldName) SubmissionPayload.zero
        (before ++ (str "conflictedWith", .array entries) :: after)).1.ConflictedWith =
      some (entries.map (fun e => (unmarshalConflictedWithPtr ext.foldName none e).1)) := by
    rw [unmarshalMembers_append]
    simp only [unmarshalMembers]
    rw [unmarshalMembers_frame _ (fun p => p.ConflictedWith) after _
      (fun m hm w => SubmissionPayload_setMember_conflictedWith_frame _ w m
        (honce m (List.mem_append_right _ hm)))]
    have hbefore := unmarshalMembers_frame (SubmissionPayload.setMember ext.foldName)
      (fun p => p.ConflictedWith) before SubmissionPayload.zero
      (fun m hm w => SubmissionPayload_setMember_conflictedWith_frame _ w m
        (honce m (List.mem_append_left _ hm)))
    simp only [SubmissionPayload.setMember, findField_conflictedWith,
      unmarshalConflictedWithSlice]
    simp only at hbefore
    rw [hbefore]
    simp only [SubmissionPayload.zero, Option.getD_none, unmarshalElems_nil]
  have hobject : ∀ members h s t, Json.object members ∈ entries →
      members.Perm
        [(str "hex", .string h), (str "size", .number s), (str "txid", .string t)] →
      (unmarshalConflictedWithPtr ext.foldName none (.object members)).1 =
        some ⟨h, s, t⟩ := by
    intro members h s t hmem hp
    have hs := acceptsConflictedWith_size ext.foldName members h t s hp (hentries _ hmem)
    simp only [unmarshalConflictedWithPtr,
      unmarshalConflictedWith_members ext.foldName _ members h t s hp hs]
  unfold parseSubmission
  dsimp only
  rw [hprocess]
  dsimp only
  rw [if_pos hpos]
  dsimp only
  unfold jsonUnmarshalResults
  rw [hdoc]
  dsimp only
  refine ⟨herr, _,
    entries.map (fun e => (unmarshalConflictedWithPtr ext.foldName none e).1), rfl, hfield,
    by simp, ?_, ?_, ?_⟩
  · intro k hk
    rw [List.getElem?_map, hk]
    rfl
  · intro k members h s t hk hp
    rw [List.getElem?_map, hk]
    rw [Option.map_some', hobject members h s t (List.getElem?_mem hk) hp]
  · intro members h s t he hp
    subst he
    simp only [List.map_cons, List.map_nil,
      hobject members h s t (List.mem_cons_self _ _) hp]

/-- C7 at a concrete response: the provider reports one conflicting
transaction and writes its members in the order txid, size, hex. -/
theorem parseSubmission_conflictedWith_witness :
    ∃ results,
      (parseSubmission doubleSpendProvider
        { Miner := some exampleMiner, Response := exampleResponse }).value.Results =
        some results ∧
      results.ConflictedWith = some [some ⟨str "0100000001", 191, str "6bdbcfab"⟩] := by
  obtain ⟨_, results, conflicts, hr, hc, _, _, _, hone⟩ :=
    parseSubmission_conflictedWith doubleSpendProvider
      { Miner := some exampleMiner, Response := exampleResponse }
      [(str "returnResult", .string (str "failure"))]
      [(str "txid", .string (str "e7b3eefa"))]
      [.object [(str "txid", .string (str "6bdbcfab")), (str "size", .number 191),
        (str "hex", .string (str "0100000001"))]]
      rfl (by decide) rfl rfl (by decide)
  refine ⟨results, hr, ?_⟩
  rw [hc, hone _ (str "0100000001") 191 (str "6bdbcfab") rfl
    ((List.Perm.swap (str "size", Json.number 191) (str "txid", .string (str "6bdbcfab"))
        [(str "hex", .string (str "0100000001"))]).trans
      ((List.Perm.cons (str "size", Json.number 191)
        (List.Perm.swap (str "hex", Json.string (str "0100000001"))
          (str "txid", .string (str "6bdbcfab")) [])).trans
        (List.Perm.swap (str "hex", Json.string (str "0100000001"))
          (str "size", .number 191) [(str "txid", .string (str "6bdbcfab"))])))]

/-! ## Strings: the loops never run out of fuel, and valid UTF-8 is kept -/

theorem decodeRuneWidth_pos (p : GoString) (size : Nat) (h : decodeRuneWidth p = some size) :
    1 ≤ size := by
  unfold decodeRuneWidth at h
  split at h
  · cases h
  · split at h
    · cases h
    · split at h
      · cases h
      · split at h
        · cases h
        · split at h
          · cases h; decide
          · split at h
            · cases h
            · split at h
              · cases h
              · split at h
                · cases h; decide
                · split at h
                  · cases h
                  · split at h
                    · cases h
                    · cases h; decide

theorem coerceLoop_fuel :
    ∀ (fuel more : Nat) (s : GoString), s.length ≤ fuel → s.length ≤ more →
      coerceLoop fuel s = coerceLoop more s := by
  intro fuel
  induction fuel with
  | zero =>
    intro more s h _
    have : s = [] := List.length_eq_zero.1 (Nat.le_zero.1 h)
    subst this
    cases more <;> rfl
  | succ fuel ih =>
    intro more s h hmore
    cases s with
    | nil => cases more <;> rfl
    | cons b rest =>
      cases more with
      | zero => simp at hmore
      | succ more =>
        simp only [List.length_cons, Nat.add_le_add_iff_right] at h hmore
        simp only [coerceLoop]
        split
        · rw [ih more rest h hmore]
        · split
          · rw [ih more rest h hmore]
          · rename_i size hsize
            have hpos := decodeRuneWidth_pos _ _ hsize
            have hdrop : ((b :: rest).drop size).length ≤ rest.length := by
              simp only [List.length_drop, List.length_cons]
              omega
            rw [ih more _ (Nat.le_trans hdrop h) (Nat.le_trans hdrop hmore)]

theorem validStringLoop_fuel :
    ∀ (fuel more : Nat) (s : GoString), s.length ≤ fuel → s.length ≤ more →
      validStringLoop fuel s = validStringLoop more s := by
  intro fuel
  induction fuel with
  | zero =>
    intro more s h _
    have : s = [] := List.length_eq_zero.1 (Nat.le_zero.1 h)
    subst this
    cases more <;> rfl
  | succ fuel ih =>
    intro more s h hmore
    cases s with
    | nil => cases more <;> rfl
    | cons b rest =>
      cases more with
      | zero => simp at hmore
      | succ more =>
        simp only [List.length_cons, Nat.add_le_add_iff_right] at h hmore
        simp only [validStringLoop]
        split
        · rw [ih more rest h hmore]
        · split
          · rfl
          · rename_i size hsize
            have hpos := decodeRuneWidth_pos _ _ hsize
            have hdrop : ((b :: rest).drop size).length ≤ rest.length := by
              simp only [List.length_drop, List.length_cons]
              omega
            rw [ih more _ (Nat.le_trans hdrop h) (Nat.le_trans hdrop hmore)]

theorem coerceLoop_of_valid :
    ∀ (fuel : Nat) (s : GoString), validStringLoop fuel s = true → coerceLoop fuel s = s := by
  intro fuel
  induction fuel with
  | zero =>
    intro s h
    cases s with
    | nil => rfl
    | cons b rest => simp [validStringLoop] at h
  | succ fuel ih =>
    intro s h
    cases s with
    | nil => rfl
    | cons b rest =>
      simp only [validStringLoop] at h
      simp only [coerceLoop]
      split at h
      · rename_i hb
        rw [if_pos hb, ih rest h]
      · rename_i hb
        rw [if_neg hb]
        split at h
        · cases h
        · rename_i size hsize
          rw [ih _ h, List.take_append_drop]

theorem toValidUTF8_of_valid (s : GoString) (h : validString s = true) : toValidUTF8 s = s :=
  coerceLoop_of_valid s.length s h

/-! ## Encoding, then decoding -/

theorem findField_of_index (fold : GoString → GoString) (names : List GoString) (key : GoString)
    (i : Nat) (h : indexWhere (fun n => n == key) names = some i) :
    findField fold names key = some i := by
  unfold findField
  rw [h]

theorem SubmissionPayload_field_apiVersion (fold : GoString → GoString) :
    findField fold SubmissionPayload.fields (str "apiVersion") = some 0 :=
  findField_of_index fold _ _ _ (by decide)

theorem SubmissionPayload_field_conflictedWith (fold : GoString → GoString) :
    findField fold SubmissionPayload.fields (str "conflictedWith") = some 1 :=
  findField_of_index fold _ _ _ (by decide)

theorem SubmissionPayload_field_currentHighestBlockHash (fold : GoString → GoString) :
    findField fold SubmissionPayload.fields (str "currentHighestBlockHash") = some 2 :=
  findField_of_index fold _ _ _ (by decide)

theorem SubmissionPayload_field_currentHighestBlockHeight (fold : GoString → GoString) :
    findField fold SubmissionPayload.fields (str "currentHighestBlockHeight") = some 3 :=
  findField_of_index fold _ _ _ (by decide)

theorem SubmissionPayload_field_minerId (fold : GoString → GoString) :
    findField fold SubmissionPayload.fields (str "minerId") = some 4 :=
  findField_of_index fold _ _ _ (by decide)

theorem SubmissionPayload_field_resultDescription (fold : GoString → GoString) :
    findField fold SubmissionPayload.fields (str "resultDescription") = some 5 :=
  findField_of_index fold _ _ _ (by decide)

theorem SubmissionPayload_field_returnResult (fold : GoString → GoString) :
    findField fold SubmissionPayload.fields (str "returnResult") = some 6 :=
  findField_of_index fold _ _ _ (by decide)

theorem SubmissionPayload_field_timestamp (fold : GoString → GoString) :
    findField fold SubmissionPayload.fields (str "timestamp") = some 7 :=
  findField_of_index fold _ _ _ (by decide)

theorem SubmissionPayload_field_txid (fold : GoString → GoString) :
    findField fold SubmissionPayload.fields (str "txid") = some 8 :=
  findField_of_index fold _ _ _ (by decide)

theorem SubmissionPayload_field_txSecondMempoolExpiry (fold : GoString → GoString) :
    findField fold SubmissionPayload.fields (str "txSecondMempoolExpiry") = some 9 :=
  findField_of_index fold _ _ _ (by decide)

theorem Callback_field_apiVersion (fold : GoString → GoString) :
    findField fold Callback.fields (str "apiVersion") = some 0 :=
  findField_of_index fold _ _ _ (by decide)

theorem Callback_field_blockHash (fold : GoString → GoString) :
    findField fold Callback.fields (str "blockHash") = some 1 :=
  findField_of_index fold _ _ _ (by decide)

theorem Callback_field_blockHeight (fold : GoString → GoString) :
    findField fold Callback.fields (str "blockHeight") = some 2 :=
  findField_of_index fold _ _ _ (by decide)

theorem Callback_field_callbackPayload (fold : GoString → GoString) :
    findField fold Callback.fields (str "callbackPayload") = some 3 :=
  findField_of_index fold _ _ _ (by decide)

theorem Callback_field_callbackReason (fold : GoString → GoString) :
    findField fold Callback.fields (str "callbackReason") = some 4 :=
  findField_of_index fold _ _ _ (by decide)

theorem Callback_field_callbackTxId (fold : GoString → GoString) :
    findField fold Callback.fields (str "callbackTxId") = some 5 :=
  findField_of_index fold _ _ _ (by decide)

theorem Callback_field_minerId (fold : GoString → GoString) :
    findField fold Callback.fields (str "minerId") = some 6 :=
  findField_of_index fold _ _ _ (by decide)

theorem Callback_field_timestamp (fold : GoString → GoString) :
    findField fold Callback.fields (str "timestamp") = some 7 :=
  findField_of_index fold _ _ _ (by decide)

theorem unmarshalConflictedWithPtr_marshal (fold : GoString → GoString)
    (old c : Option ConflictedWith)
    (h : (match c with
      | none => true
      | some c => c.wellFormed) = true) :
    unmarshalConflictedWithPtr fold old (marshalConflictedWith c) = (c, none) := by
  cases c with
  | none => rfl
  | some c =>
    simp only [ConflictedWith.wellFormed, Bool.and_eq_true] at h
    obtain ⟨⟨hh, hs⟩, ht⟩ := h
    simp only [marshalConflictedWith, unmarshalConflictedWithPtr,
      toValidUTF8_of_valid _ hh, toValidUTF8_of_valid _ ht,
      unmarshalConflictedWith_entry _ _ _ _ _ hs]

theorem unmarshalElems_marshal (fold : GoString → GoString) :
    ∀ (cs old : List (Option ConflictedWith)),
      wellFormedConflicts (some cs) = true →
      unmarshalElems fold old (cs.map marshalConflictedWith) = (cs, none) := by
  intro cs
  induction cs with
  | nil => intro old _; rfl
  | cons c cs ih =>
    intro old h
    simp only [wellFormedConflicts, List.all_cons, Bool.and_eq_true] at h
    simp only [List.map_cons, unmarshalElems,
      unmarshalConflictedWithPtr_marshal fold _ c h.1, ih old.tail h.2, firstError]

theorem unmarshalConflictedWithSlice_marshal (fold : GoString → GoString)
    (cur cs : Option (List (Option ConflictedWith))) (h : wellFormedConflicts cs = true) :
    unmarshalConflictedWithSlice fold cur (marshalConflictedWithSlice cs) = (cs, none) := by
  cases cs with
  | none => rfl
  | some cs =>
    simp only [marshalConflictedWithSlice, unmarshalConflictedWithSlice,
      unmarshalElems_marshal fold cs _ h]

theorem unmarshalSubmissionPayload_marshal (fold : GoString → GoString)
    (cur p : SubmissionPayload) (h : p.wellFormed = true) :
    unmarshalSubmissionPayload fold cur (marshalSubmissionPayload p) = (p, none) := by
  simp only [SubmissionPayload.wellFormed, Bool.and_eq_true] at h
  obtain ⟨⟨⟨⟨⟨⟨⟨⟨⟨h0, h1⟩, h2⟩, h3⟩, h4⟩, h5⟩, h6⟩, h7⟩, h8⟩, h9⟩ := h
  simp only [marshalSubmissionPayload, unmarshalSubmissionPayload, unmarshalMembers,
    SubmissionPayload.setMember, SubmissionPayload_field_apiVersion,
    SubmissionPayload_field_conflictedWith, SubmissionPayload_field_currentHighestBlockHash,
    SubmissionPayload_field_currentHighestBlockHeight, SubmissionPayload_field_minerId,
    SubmissionPayload_field_resultDescription, SubmissionPayload_field_returnResult,
    SubmissionPayload_field_timestamp, SubmissionPayload_field_txid,
    SubmissionPayload_field_txSecondMempoolExpiry,
    toValidUTF8_of_valid _ h0, toValidUTF8_of_valid _ h2, toValidUTF8_of_valid _ h4,
    toValidUTF8_of_valid _ h5, toValidUTF8_of_valid _ h6, toValidUTF8_of_valid _ h7,
    toValidUTF8_of_valid _ h8, unmarshalString, unmarshalInt, h3, h9, if_true,
    unmarshalConflictedWithSlice_marshal fold _ _ h1, firstError]

theorem unmarshalUint64_number (cur n : Nat) (h : fitsUint 64 (n : Int) = true) :
    unmarshalUint64 cur (.number (n : Int)) = (n, none) := by
  simp only [unmarshalUint64, h, if_true, Int.toNat_ofNat]

theorem Callback_set_apiVersion (fold : GoString → GoString) (c : Callback) (s : GoString) :
    Callback.setMember fold c (str "apiVersion", .string s) =
      ({ c with APIVersion := s }, none) := by
  simp only [Callback.setMember, Callback_field_apiVersion, unmarshalString]

theorem Callback_set_blockHash (fold : GoString → GoString) (c : Callback) (s : GoString) :
    Callback.setMember fold c (str "blockHash", .string s) =
      ({ c with BlockHash := s }, none) := by
  simp only [Callback.setMember, Callback_field_blockHash, unmarshalString]

theorem Callback_set_blockHeight (fold : GoString → GoString) (c : Callback) (n : Nat)
    (h : fitsUint 64 (n : Int) = true) :
    Callback.setMember fold c (str "blockHeight", .number (n : Int)) =
      ({ c with BlockHeight := n }, none) := by
  simp only [Callback.setMember, Callback_field_blockHeight, unmarshalUint64_number _ _ h]

theorem Callback_set_callbackPayload (fold : GoString → GoString) (c : Callback) (s : GoString) :
    Callback.setMember fold c (str "callbackPayload", .string s) =
      ({ c with CallbackPayload := s }, none) := by
  simp only [Callback.setMember, Callback_field_callbackPayload, unmarshalString]

theorem Callback_set_callbackReason (fold : GoString → GoString) (c : Callback) (s : GoString) :
    Callback.setMember fold c (str "callbackReason", .string s) =
      ({ c with CallbackReason := s }, none) := by
  simp only [Callback.setMember, Callback_field_callbackReason, unmarshalString]

theorem Callback_set_callbackTxId (fold : GoString → GoString) (c : Callback) (s : GoString) :
    Callback.setMember fold c (str "callbackTxId", .string s) =
      ({ c with CallbackTxID := s }, none) := by
  simp only [Callback.setMember, Callback_field_callbackTxId, unmarshalString]

theorem Callback_set_minerId (fold : GoString → GoString) (c : Callback) (s : GoString) :
    Callback.setMember fold c (str "minerId", .string s) =
      ({ c with MinerID := s }, none) := by
  simp only [Callback.setMember, Callback_field_minerId, unmarshalString]

theorem Callback_set_timestamp (fold : GoString → GoString) (c : Callback) (s : GoString) :
    Callback.setMember fold c (str "timestamp", .string s) =
      ({ c with Timestamp := s }, none) := by
  simp only [Callback.setMember, Callback_field_timestamp, unmarshalString]

theorem unmarshalCallback_marshal (fold : GoString → GoString)
    (cur c : Callback) (h : c.wellFormed = true) :
    unmarshalCallback fold cur (marshalCallback c) = (c, none) := by
  simp only [Callback.wellFormed, Bool.and_eq_true] at h
  obtain ⟨⟨⟨⟨⟨⟨⟨h0, h1⟩, h2⟩, h3⟩, h4⟩, h5⟩, h6⟩, h7⟩ := h
  simp only [marshalCallback, toValidUTF8_of_valid _ h0, toValidUTF8_of_valid _ h1,
    toValidUTF8_of_valid _ h3, toValidUTF8_of_valid _ h4, toValidUTF8_of_valid _ h5,
    toValidUTF8_of_valid _ h6, toValidUTF8_of_valid _ h7]
  simp only [unmarshalCallback, unmarshalMembers, Callback_set_apiVersion,
    Callback_set_blockHash, Callback_set_blockHeight _ _ _ h2, Callback_set_callbackPayload,
    Callback_set_callbackReason, Callback_set_callbackTxId, Callback_set_minerId,
    Callback_set_timestamp]
  rfl

/-! ## Decoding, then encoding -/

theorem indexWhere_get (key : GoString) :
    ∀ (names : List GoString) (i : Nat),
      indexWhere (fun n => n == key) names = some i → names[i]? = some key := by
  intro names
  induction names with
  | nil => intro i h; simp [indexWhere] at h
  | cons n ns ih =>
    intro i h
    simp only [indexWhere] at h
    split at h
    · rename_i hn
      cases h
      simp only [beq_iff_eq] at hn
      simp [hn]
    · cases hr : indexWhere (fun n => n == key) ns with
      | none => simp [hr] at h
      | some j =>
        simp only [hr, Option.map_some', Option.some.injEq] at h
        subst h
        simpa using ih j hr

theorem indexWhere_of_mem (key : GoString) :
    ∀ (names : List GoString), key ∈ names →
      ∃ i, indexWhere (fun n => n == key) names = some i := by
  intro names
  induction names with
  | nil => intro h; cases h
  | cons n ns ih =>
    intro h
    simp only [indexWhere]
    by_cases hn : n = key
    · exact ⟨0, by simp [hn]⟩
    · have hmem : key ∈ ns := by
        rcases List.mem_cons.1 h with h | h
        · exact absurd h.symm hn
        · exact h
      obtain ⟨j, hj⟩ := ih hmem
      exact ⟨j + 1, by simp [hn, hj]⟩

theorem find_zip (key : GoString) :
    ∀ (names : List GoString) (vals : List Json) (i : Nat),
      indexWhere (fun n => n == key) names = some i → names.length ≤ vals.length →
      ((names.zip vals).find? (fun m => m.1 == key)).map (fun m => m.2) = vals[i]? := by
  intro names
  induction names with
  | nil => intro vals i h; simp [indexWhere] at h
  | cons n ns ih =>
    intro vals i h hlen
    cases vals with
    | nil => simp at hlen
    | cons x xs =>
      simp only [indexWhere] at h
      by_cases hn : (n == key) = true
      · rw [if_pos hn] at h
        cases h
        simp [List.find?, hn]
      · rw [if_neg hn] at h
        cases hr : indexWhere (fun n => n == key) ns with
        | none => simp [hr] at h
        | some j =>
          simp only [hr, Option.map_some', Option.some.injEq] at h
          subst h
          have := ih xs j hr (by simpa using hlen)
          simpa [List.find?, hn] using this

theorem find_member (key : GoString) (v : Json) :
    ∀ (pre post : List (GoString × Json)), key ∉ pre.map Prod.fst →
      ((pre ++ (key, v) :: post).find? (fun m => m.1 == key)).map (fun m => m.2) = some v := by
  intro pre
  induction pre with
  | nil => intro post _; simp [List.find?]
  | cons m ms ih =>
    intro post h
    simp only [List.map_cons, List.mem_cons, not_or] at h
    have hm : (m.1 == key) = false := by
      simpa using fun heq => h.1 heq.symm
    simpa [List.find?, hm] using ih post h.2

theorem unmarshalMembers_no_error {α : Type}
    (set : α → GoString × Json → α × Option Error) :
    ∀ (ms : List (GoString × Json)) (v : α),
      (∀ m ∈ ms, ∀ w, (set w m).2 = none) → (unmarshalMembers set v ms).2 = none := by
  intro ms
  induction ms with
  | nil => intro v _; rfl
  | cons m ms ih =>
    intro v h
    simp only [unmarshalMembers, firstError_eq_none]
    exact ⟨h m (List.mem_cons_self _ _) v,
      ih _ (fun m' hm' => h m' (List.mem_cons_of_mem _ hm'))⟩

theorem not_mem_of_nodup_filter (p : GoString → Bool) (x : GoString) (hx : p x = true)
    (a b : List GoString) (h : ((a ++ x :: b).filter p).Nodup) : x ∉ a ∧ x ∉ b := by
  rw [List.filter_append, List.filter_cons_of_pos hx] at h
  have h' := List.nodup_append.1 h
  exact ⟨fun ha => h'.2.2 (List.mem_filter.2 ⟨ha, hx⟩) (List.mem_cons_self _ _),
    fun hb => (List.nodup_cons.1 h'.2.1).1 (List.mem_filter.2 ⟨hb, hx⟩)⟩

theorem sameOrZero_of_null (same : FieldKind → Json → Json → Prop) (k : FieldKind)
    (y : Json) (hy : y.isNull = true) : sameOrZero same k (zeroValue k) (some y) := by
  cases y <;> first | exact (rfl : zeroValue k = zeroValue k) | cases hy

theorem sameOrZero_of_same (same : FieldKind → Json → Json → Prop) (k : FieldKind)
    (x y : Json) (hy : y.isNull = false) (h : same k x y) : sameOrZero same k x (some y) := by
  cases y <;> first | exact h | cases hy

theorem unmarshalMembers_document {α : Type} (fold : GoString → GoString)
    (fields : List GoString) (kinds : List FieldKind) (values : α → List Json)
    (set : α → GoString × Json → α × Option Error)
    (good : FieldKind → Json → Bool) (same : FieldKind → Json → Json → Prop)
    (hkinds : fields.length ≤ kinds.length)
    (hvalues : ∀ p, fields.length ≤ (values p).length)
    (hframe : ∀ (w : α) (m : GoString × Json) (i : Nat),
      findField fold fields m.1 ≠ some i →
      (values (set w m).1)[i]? = (values w)[i]?)
    (hmiss : ∀ (w : α) (m : GoString × Json),
      findField fold fields m.1 = none → (set w m).2 = none)
    (herr : ∀ (w : α) (m : GoString × Json) (i : Nat) (k : FieldKind),
      findField fold fields m.1 = some i → kinds[i]? = some k →
      (m.2.isNull || good k m.2) = true → (set w m).2 = none)
    (hnull : ∀ (w : α) (m : GoString × Json) (i : Nat) (k : FieldKind),
      findField fold fields m.1 = some i → kinds[i]? = some k →
      m.2.isNull = true → (values w)[i]? = some (zeroValue k) →
      (values (set w m).1)[i]? = some (zeroValue k))
    (hhit : ∀ (w : α) (m : GoString × Json) (i : Nat) (k : FieldKind),
      findField fold fields m.1 = some i → kinds[i]? = some k →
      good k m.2 = true → (values w)[i]? = some (zeroValue k) →
      ∃ x, (values (set w m).1)[i]? = some x ∧ same k x m.2)
    (ms : List (GoString × Json))
    (hdoc : isDocumentWith fold good fields kinds (.object ms) = true) :
    (∀ v, (unmarshalMembers set v ms).2 = none) ∧
    ∀ v : α,
      (∀ (i : Nat) (k : FieldKind), kinds[i]? = some k →
        (values v)[i]? = some (zeroValue k)) →
      sameDocumentWith same fields kinds
        (.object (fields.zip (values (unmarshalMembers set v ms).1))) (.object ms) := by
  simp only [isDocumentWith, Bool.and_eq_true, decide_eq_true_eq, List.all_eq_true] at hdoc
  obtain ⟨hnd, hall⟩ := hdoc
  have hclass : ∀ m ∈ ms, findField fold fields m.1 = none ∨
      ∃ i k, findField fold fields m.1 = some i ∧
        indexWhere (fun n => n == m.1) fields = some i ∧ kinds[i]? = some k ∧
        (m.2.isNull || good k m.2) = true := by
    intro m hm
    have := hall m hm
    unfold kindOf at this
    cases hi : indexWhere (fun n => n == m.1) fields with
    | none =>
      simp only [hi] at this
      exact Or.inl (Option.isNone_iff_eq_none.1 this)
    | some i =>
      simp only [hi] at this
      cases hk : kinds[i]? with
      | none =>
        simp only [hk] at this
        rw [findField_of_index fold _ _ _ hi] at this
        cases this
      | some k =>
        simp only [hk] at this
        exact Or.inr ⟨i, k, findField_of_index fold _ _ _ hi, rfl, hk, this⟩
  refine ⟨fun v => ?_, fun v hzero => ?_⟩
  · refine unmarshalMembers_no_error set ms v (fun m hm w => ?_)
    rcases hclass m hm with hn | ⟨i, k, hf, _, hk, hg⟩
    · exact hmiss w m hn
    · exact herr w m i k hf hk hg
  · intro key hkey
    obtain ⟨i, hi⟩ := indexWhere_of_mem key fields hkey
    have hget := indexWhere_get key fields i hi
    have hlt : i < fields.length := by
      by_contra hge
      rw [List.getElem?_eq_none (Nat.le_of_not_lt hge)] at hget
      cases hget
    obtain ⟨k, hk⟩ : ∃ k, kinds[i]? = some k :=
      ⟨kinds[i], List.getElem?_eq_getElem (Nat.lt_of_lt_of_le hlt hkinds)⟩
    have hkind : kindOf fields kinds key = some k := by simp only [kindOf, hi, hk]
    have hf : findField fold fields key = some i := findField_of_index fold _ _ _ hi
    have hnothit : ∀ m ∈ ms, m.1 ≠ key → findField fold fields m.1 ≠ some i := by
      intro m hm hne heq
      rcases hclass m hm with hn | ⟨j, _, hfj, hij, _, _⟩
      · rw [hn] at heq
        cases heq
      · rw [hfj] at heq
        cases heq
        have h1 := indexWhere_get m.1 fields _ hij
        rw [h1] at hget
        exact hne (Option.some.inj hget)
    by_cases hin : key ∈ ms.map Prod.fst
    · obtain ⟨⟨key', val⟩, hmem, hfst⟩ := List.mem_map.1 hin
      simp only at hfst
      subst hfst
      obtain ⟨pre, post, hsplit⟩ := List.append_of_mem hmem
      subst hsplit
      rw [List.map_append, List.map_cons] at hnd
      obtain ⟨hpre, hpost⟩ := not_mem_of_nodup_filter _ key' (decide_eq_true hkey) _ _ hnd
      have hothers : ∀ m ∈ post, findField fold fields m.1 ≠ some i := by
        intro m hm
        refine hnothit m (List.mem_append_right _ (List.mem_cons_of_mem _ hm)) ?_
        intro heq
        exact hpost (heq ▸ List.mem_map_of_mem Prod.fst hm)
      have hbefore : (values (unmarshalMembers set v pre).1)[i]? = (values v)[i]? := by
        refine unmarshalMembers_frame set (fun p => (values p)[i]?) pre v (fun m hm w => ?_)
        refine hframe w m i (hnothit m (List.mem_append_left _ hm) ?_)
        intro heq
        exact hpre (heq ▸ List.mem_map_of_mem Prod.fst hm)
      have hval : (values (unmarshalMembers set v (pre ++ (key', val) :: post)).1)[i]? =
          (values (set (unmarshalMembers set v pre).1 (key', val)).1)[i]? := by
        rw [unmarshalMembers_append]
        simp only [unmarshalMembers]
        exact unmarshalMembers_frame set (fun p => (values p)[i]?) post _
          (fun m hm w => hframe w m i (hothers m hm))
      have hw : (values (unmarshalMembers set v pre).1)[i]? = some (zeroValue k) := by
        rw [hbefore]
        exact hzero i k hk
      have hdocmem : (Json.object (pre ++ (key', val) :: post)).member key' = some val :=
        find_member key' val pre post hpre
      rw [hdocmem]
      cases hnull' : val.isNull with
      | true =>
        refine ⟨k, zeroValue k, hkind, ?_, sameOrZero_of_null same k val hnull'⟩
        simp only [Json.member]
        rw [find_zip key' fields _ i hi (hvalues _), hval]
        exact hnull _ (key', val) i k hf hk hnull' hw
      | false =>
        have hg : good k val = true := by
          rcases hclass (key', val) hmem with hn | ⟨j, k', hfj, _, hk', hg'⟩
          · rw [hf] at hn
            cases hn
          · rw [hf] at hfj
            cases hfj
            rw [hk] at hk'
            cases hk'
            simpa [hnull'] using hg'
        obtain ⟨x, hx, hsame⟩ := hhit _ (key', val) i k hf hk hg hw
        refine ⟨k, x, hkind, ?_, sameOrZero_of_same same k x val hnull' hsame⟩
        simp only [Json.member]
        rw [find_zip key' fields _ i hi (hvalues _), hval, hx]
    · have hval : (values (unmarshalMembers set v ms).1)[i]? = (values v)[i]? := by
        refine unmarshalMembers_frame set (fun p => (values p)[i]?) ms v (fun m hm w => ?_)
        refine hframe w m i (hnothit m hm ?_)
        intro heq
        exact hin (heq ▸ List.mem_map_of_mem Prod.fst hm)
      have hdocmem : (Json.object ms).member key = none := by
        simp only [Json.member, Option.map_eq_none', List.find?_eq_none]
        intro m hm heq
        exact hin (List.mem_map.2 ⟨m, hm, by simpa using heq⟩)
      rw [hdocmem]
      refine ⟨k, zeroValue k, hkind, ?_, (rfl : zeroValue k = zeroValue k)⟩
      simp only [Json.member]
      rw [find_zip key fields _ i hi (hvalues _), hval]
      exact hzero i k hk

theorem marshalConflictedWith_eq (c : ConflictedWith) :
    marshalConflictedWith (some c) = .object (ConflictedWith.fields.zip c.values) := rfl

theorem marshalSubmissionPayload_eq (p : SubmissionPayload) :
    marshalSubmissionPayload p = .object (SubmissionPayload.fields.zip p.values) := rfl

theorem marshalCallback_eq (c : Callback) :
    marshalCallback c = .object (Callback.fields.zip c.values) := rfl

theorem unmarshalString_document (cur : GoString) (j : Json)
    (h : isScalarOf .string j = true) :
    (unmarshalString cur j).2 = none ∧
    Json.string (toValidUTF8 (unmarshalString cur j).1) = j := by
  cases j <;> simp [isScalarOf] at h
  exact ⟨rfl, by simp [unmarshalString, toValidUTF8_of_valid _ h]⟩

theorem unmarshalInt_document (bits : Nat) (goType : GoString) (cur : Int) (j : Json)
    (h : isScalarOf (.int bits) j = true) :
    (unmarshalInt bits goType cur j).2 = none ∧
    Json.number (unmarshalInt bits goType cur j).1 = j := by
  cases j <;> simp [isScalarOf] at h
  simp [unmarshalInt, h]

theorem unmarshalUint64_document (cur : Nat) (j : Json)
    (h : isScalarOf (.uint 64) j = true) :
    (unmarshalUint64 cur j).2 = none ∧
    Json.number ((unmarshalUint64 cur j).1 : Int) = j := by
  cases j <;> simp [isScalarOf] at h
  rename_i n
  have hn : 0 ≤ n := by
    simp only [fitsUint, Bool.and_eq_true, decide_eq_true_eq] at h
    exact h.1
  simp [unmarshalUint64, h, Int.toNat_of_nonneg hn]

theorem unmarshalString_null (cur : GoString) (j : Json) (h : j.isNull = true) :
    unmarshalString cur j = (cur, none) := by
  cases j <;> first | rfl | cases h

theorem unmarshalInt_null (bits : Nat) (goType : GoString) (cur : Int) (j : Json)
    (h : j.isNull = true) : unmarshalInt bits goType cur j = (cur, none) := by
  cases j <;> first | rfl | cases h

theorem unmarshalUint64_null (cur : Nat) (j : Json) (h : j.isNull = true) :
    unmarshalUint64 cur j = (cur, none) := by
  cases j <;> first | rfl | cases h

theorem unmarshalConflictedWithSlice_null (fold : GoString → GoString)
    (cur : Option (List (Option ConflictedWith))) (j : Json) (h : j.isNull = true) :
    unmarshalConflictedWithSlice fold cur j = (none, none) := by
  cases j <;> first | rfl | cases h

theorem unmarshalString_no_error (cur : GoString) (j : Json)
    (h : (j.isNull || isScalarOf .string j) = true) : (unmarshalString cur j).2 = none := by
  rcases Bool.or_eq_true _ _ ▸ h with hn | hg
  · rw [unmarshalString_null cur j hn]
  · exact (unmarshalString_document cur j hg).1

theorem unmarshalInt_no_error (bits : Nat) (goType : GoString) (cur : Int) (j : Json)
    (h : (j.isNull || isScalarOf (.int bits) j) = true) :
    (unmarshalInt bits goType cur j).2 = none := by
  rcases Bool.or_eq_true _ _ ▸ h with hn | hg
  · rw [unmarshalInt_null bits goType cur j hn]
  · exact (unmarshalInt_document bits goType cur j hg).1

theorem unmarshalUint64_no_error (cur : Nat) (j : Json)
    (h : (j.isNull || isScalarOf (.uint 64) j) = true) : (unmarshalUint64 cur j).2 = none := by
  rcases Bool.or_eq_true _ _ ▸ h with hn | hg
  · rw [unmarshalUint64_null cur j hn]
  · exact (unmarshalUint64_document cur j hg).1

theorem ConflictedWith_setMember_frame (fold : GoString → GoString) (w : ConflictedWith)
    (m : GoString × Json) (i : Nat) (h : findField fold ConflictedWith.fields m.1 ≠ some i) :
    ((ConflictedWith.setMember fold w m).1.values)[i]? = (w.values)[i]? := by
  unfold ConflictedWith.setMember
  generalize findField fold ConflictedWith.fields m.1 = r at h
  rcases r with _ | _ | _ | _ | n <;> rcases i with _ | _ | _ | i <;>
    first
    | exact absurd rfl h
    | rfl

theorem ConflictedWith_setMember_miss (fold : GoString → GoString) (w : ConflictedWith)
    (m : GoString × Json) (h : findField fold ConflictedWith.fields m.1 = none) :
    (ConflictedWith.setMember fold w m).2 = none := by
  unfold ConflictedWith.setMember
  rw [h]

theorem ConflictedWith_setMember_no_error (fold : GoString → GoString) (w : ConflictedWith)
    (m : GoString × Json) (i : Nat) (k : FieldKind)
    (hf : findField fold ConflictedWith.fields m.1 = some i)
    (hk : ConflictedWith.kinds[i]? = some k)
    (hg : (m.2.isNull || isScalarOf k m.2) = true) :
    (ConflictedWith.setMember fold w m).2 = none := by
  unfold ConflictedWith.setMember
  rw [hf]
  rcases i with _ | _ | _ | i <;> cases hk <;>
    first
    | exact unmarshalString_no_error _ _ hg
    | exact unmarshalInt_no_error _ _ _ _ hg

theorem ConflictedWith_setMember_null (fold : GoString → GoString) (w : ConflictedWith)
    (m : GoString × Json) (i : Nat) (k : FieldKind)
    (hf : findField fold ConflictedWith.fields m.1 = some i)
    (hk : ConflictedWith.kinds[i]? = some k) (hn : m.2.isNull = true)
    (hw : (w.values)[i]? = some (zeroValue k)) :
    ((ConflictedWith.setMember fold w m).1.values)[i]? = some (zeroValue k) := by
  obtain ⟨key, val⟩ := m
  cases val <;> cases hn
  unfold ConflictedWith.setMember
  rw [hf]
  rcases i with _ | _ | _ | i <;> cases hk <;> exact hw

theorem ConflictedWith_setMember_hit (fold : GoString → GoString) (w : ConflictedWith)
    (m : GoString × Json) (i : Nat) (k : FieldKind)
    (hf : findField fold ConflictedWith.fields m.1 = some i)
    (hk : ConflictedWith.kinds[i]? = some k) (hg : isScalarOf k m.2 = true)
    (_ : (w.values)[i]? = some (zeroValue k)) :
    ∃ x, ((ConflictedWith.setMember fold w m).1.values)[i]? = some x ∧ x = m.2 := by
  unfold ConflictedWith.setMember
  rw [hf]
  rcases i with _ | _ | _ | i <;> cases hk <;>
    first
    | exact ⟨_, rfl, (unmarshalString_document _ _ hg).2⟩
    | exact ⟨_, rfl, (unmarshalInt_document _ _ _ _ hg).2⟩

theorem ConflictedWith_zero_values (i : Nat) (k : FieldKind)
    (hk : ConflictedWith.kinds[i]? = some k) :
    (ConflictedWith.zero.values)[i]? = some (zeroValue k) := by
  rcases i with _ | _ | _ | i <;> cases hk <;> rfl

theorem unmarshalConflictedWith_document (fold : GoString → GoString)
    (ms : List (GoString × Json))
    (h : isDocumentWith fold isScalarOf ConflictedWith.fields ConflictedWith.kinds
      (.object ms) = true) :
    (∀ c, (unmarshalMembers (ConflictedWith.setMember fold) c ms).2 = none) ∧
    sameDocumentWith (fun _ x y => x = y) ConflictedWith.fields ConflictedWith.kinds
      (marshalConflictedWith
        (some (unmarshalMembers (ConflictedWith.setMember fold) ConflictedWith.zero ms).1))
      (.object ms) :=
  have hdoc := unmarshalMembers_document fold ConflictedWith.fields ConflictedWith.kinds
    ConflictedWith.values (ConflictedWith.setMember fold) isScalarOf (fun _ x y => x = y)
    (Nat.le_refl _) (fun _ => Nat.le_refl _) (ConflictedWith_setMember_frame fold)
    (ConflictedWith_setMember_miss fold) (ConflictedWith_setMember_no_error fold)
    (ConflictedWith_setMember_null fold) (ConflictedWith_setMember_hit fold) ms h
  ⟨hdoc.1, hdoc.2 ConflictedWith.zero ConflictedWith_zero_values⟩

theorem unmarshalElems_document (fold : GoString → GoString) :
    ∀ (elems : List Json), elems.all (isConflictedWithEntry fold) = true →
      (∀ old, (unmarshalElems fold old elems).2 = none) ∧
      List.Forall₂ sameEntry ((unmarshalElems fold [] elems).1.map marshalConflictedWith)
        elems := by
  intro elems
  induction elems with
  | nil => intro _; exact ⟨fun _ => rfl, List.Forall₂.nil⟩
  | cons e es ih =>
    intro h
    simp only [List.all_cons, Bool.and_eq_true] at h
    obtain ⟨he, hes⟩ := h
    obtain ⟨herr, hsame⟩ := ih hes
    cases e with
    | null =>
      refine ⟨fun old => ?_, List.Forall₂.cons (Or.inl ⟨rfl, rfl⟩) hsame⟩
      simp only [unmarshalElems, firstError_eq_none]
      exact ⟨rfl, herr _⟩
    | object ms =>
      have hdoc := unmarshalConflictedWith_document fold ms he
      refine ⟨fun old => ?_, List.Forall₂.cons (Or.inr ⟨?_, ?_, hdoc.2⟩) hsame⟩
      · simp only [unmarshalElems, firstError_eq_none]
        exact ⟨hdoc.1 _, herr _⟩
      · intro hnull; cases hnull
      · intro hnull; cases hnull
    | bool b => simp [isConflictedWithEntry, isDocumentWith] at he
    | number n => simp [isConflictedWithEntry, isDocumentWith] at he
    | real r => simp [isConflictedWithEntry, isDocumentWith] at he
    | string s => simp [isConflictedWithEntry, isDocumentWith] at he
    | array xs => simp [isConflictedWithEntry, isDocumentWith] at he

theorem unmarshalConflictedWithSlice_no_error (fold : GoString → GoString)
    (cur : Option (List (Option ConflictedWith))) (j : Json)
    (h : (j.isNull || isValueOf fold .conflicts j) = true) :
    (unmarshalConflictedWithSlice fold cur j).2 = none := by
  cases j with
  | null => rfl
  | array elems =>
    have h' : elems.all (isConflictedWithEntry fold) = true := by
      simpa [Json.isNull, isValueOf] using h
    exact (unmarshalElems_document fold elems h').1 _
  | bool b => simp [Json.isNull, isValueOf] at h
  | number n => simp [Json.isNull, isValueOf] at h
  | real r => simp [Json.isNull, isValueOf] at h
  | string s => simp [Json.isNull, isValueOf] at h
  | object ms => simp [Json.isNull, isValueOf] at h

theorem unmarshalConflictedWithSlice_document (fold : GoString → GoString)
    (cur : Option (List (Option ConflictedWith))) (j : Json)
    (hcur : marshalConflictedWithSlice cur = .null)
    (h : isValueOf fold .conflicts j = true) :
    sameValue .conflicts
      (marshalConflictedWithSlice (unmarshalConflictedWithSlice fold cur j).1) j := by
  cases cur with
  | some cs => cases hcur
  | none =>
    cases j with
    | null => exact Or.inl ⟨rfl, rfl⟩
    | array elems =>
      exact Or.inr ⟨_, elems, rfl, rfl, (unmarshalElems_document fold elems h).2⟩
    | bool b => simp [isValueOf] at h
    | number n => simp [isValueOf] at h
    | real r => simp [isValueOf] at h
    | string s => simp [isValueOf] at h
    | object ms => simp [isValueOf] at h

theorem getElem?_of_set {l l' : List Json} {j i : Nat} {x : Json} (h : some j ≠ some i)
    (hl : l' = l.set j x) : l'[i]? = l[i]? := by
  subst hl
  exact List.getElem?_set_ne (fun e => h (by rw [e]))

theorem SubmissionPayload_setMember_frame (fold : GoString → GoString) (w : SubmissionPayload)
    (m : GoString × Json) (i : Nat) (h : findField fold SubmissionPayload.fields m.1 ≠ some i) :
    ((SubmissionPayload.setMember fold w m).1.values)[i]? = (w.values)[i]? := by
  unfold SubmissionPayload.setMember
  generalize findField fold SubmissionPayload.fields m.1 = r at h
  rcases r with _ | _ | _ | _ | _ | _ | _ | _ | _ | _ | _ | n
  · rfl
  · exact getElem?_of_set h rfl
  · exact getElem?_of_set h rfl
  · exact getElem?_of_set h rfl
  · exact getElem?_of_set h rfl
  · exact getElem?_of_set h rfl
  · exact getElem?_of_set h rfl
  · exact getElem?_of_set h rfl
  · exact getElem?_of_set h rfl
  · exact getElem?_of_set h rfl
  · exact getElem?_of_set h rfl
  · rfl

theorem SubmissionPayload_setMember_miss (fold : GoString → GoString) (w : SubmissionPayload)
    (m : GoString × Json) (h : findField fold SubmissionPayload.fields m.1 = none) :
    (SubmissionPayload.setMember fold w m).2 = none := by
  unfold SubmissionPayload.setMember
  rw [h]

theorem SubmissionPayload_setMember_no_error (fold : GoString → GoString)
    (w : SubmissionPayload) (m : GoString × Json) (i : Nat) (k : FieldKind)
    (hf : findField fold SubmissionPayload.fields m.1 = some i)
    (hk : SubmissionPayload.kinds[i]? = some k)
    (hg : (m.2.isNull || isValueOf fold k m.2) = true) :
    (SubmissionPayload.setMember fold w m).2 = none := by
  unfold SubmissionPayload.setMember
  rw [hf]
  rcases i with _ | _ | _ | _ | _ | _ | _ | _ | _ | _ | i <;> cases hk <;>
    first
    | exact unmarshalString_no_error _ _ hg
    | exact unmarshalInt_no_error _ _ _ _ hg
    | exact unmarshalConflictedWithSlice_no_error _ _ _ hg

theorem SubmissionPayload_setMember_null (fold : GoString → GoString) (w : SubmissionPayload)
    (m : GoString × Json) (i : Nat) (k : FieldKind)
    (hf : findField fold SubmissionPayload.fields m.1 = some i)
    (hk : SubmissionPayload.kinds[i]? = some k) (hn : m.2.isNull = true)
    (hw : (w.values)[i]? = some (zeroValue k)) :
    ((SubmissionPayload.setMember fold w m).1.values)[i]? = some (zeroValue k) := by
  obtain ⟨key, val⟩ := m
  cases val <;> cases hn
  unfold SubmissionPayload.setMember
  rw [hf]
  rcases i with _ | _ | _ | _ | _ | _ | _ | _ | _ | _ | i <;> cases hk <;>
    first
    | exact hw
    | rfl

theorem SubmissionPayload_setMember_hit (fold : GoString → GoString) (w : SubmissionPayload)
    (m : GoString × Json) (i : Nat) (k : FieldKind)
    (hf : findField fold SubmissionPayload.fields m.1 = some i)
    (hk : SubmissionPayload.kinds[i]? = some k) (hg : isValueOf fold k m.2 = true)
    (hw : (w.values)[i]? = some (zeroValue k)) :
    ∃ x, ((SubmissionPayload.setMember fold w m).1.values)[i]? = some x ∧
      sameValue k x m.2 := by
  unfold SubmissionPayload.setMember
  rw [hf]
  rcases i with _ | _ | _ | _ | _ | _ | _ | _ | _ | _ | i <;> cases hk <;>
    first
    | exact ⟨_, rfl, (unmarshalString_document _ _ hg).2⟩
    | exact ⟨_, rfl, (unmarshalInt_document _ _ _ _ hg).2⟩
    | exact ⟨_, rfl, unmarshalConflictedWithSlice_document fold _ _ (Option.some.inj hw) hg⟩

theorem SubmissionPayload_zero_values (i : Nat) (k : FieldKind)
    (hk : SubmissionPayload.kinds[i]? = some k) :
    (SubmissionPayload.zero.values)[i]? = some (zeroValue k) := by
  rcases i with _ | _ | _ | _ | _ | _ | _ | _ | _ | _ | i <;> cases hk <;> rfl

theorem Callback_setMember_frame (fold : GoString → GoString) (w : Callback)
    (m : GoString × Json) (i : Nat) (h : findField fold Callback.fields m.1 ≠ some i) :
    ((Callback.setMember fold w m).1.values)[i]? = (w.values)[i]? := by
  unfold Callback.setMember
  generalize findField fold Callback.fields m.1 = r at h
  rcases r with _ | _ | _ | _ | _ | _ | _ | _ | _ | n
  · rfl
  · exact getElem?_of_set h rfl
  · exact getElem?_of_set h rfl
  · exact getElem?_of_set h rfl
  · exact getElem?_of_set h rfl
  · exact getElem?_of_set h rfl
  · exact getElem?_of_set h rfl
  · exact getElem?_of_set h rfl
  · exact getElem?_of_set h rfl
  · rfl

theorem Callback_setMember_miss (fold : GoString → GoString) (w : Callback)
    (m : GoString × Json) (h : findField fold Callback.fields m.1 = none) :
    (Callback.setMember fold w m).2 = none := by
  unfold Callback.setMember
  rw [h]

theorem Callback_setMember_no_error (fold : GoString → GoString)
    (w : Callback) (m : GoString × Json) (i : Nat) (k : FieldKind)
    (hf : findField fold Callback.fields m.1 = some i)
    (hk : Callback.kinds[i]? = some k)
    (hg : (m.2.isNull || isValueOf fold k m.2) = true) :
    (Callback.setMember fold w m).2 = none := by
  unfold Callback.setMember
  rw [hf]
  rcases i with _ | _ | _ | _ | _ | _ | _ | _ | i <;> cases hk <;>
    first
    | exact unmarshalString_no_error _ _ hg
    | exact unmarshalUint64_no_error _ _ hg

theorem Callback_setMember_null (fold : GoString → GoString) (w : Callback)
    (m : GoString × Json) (i : Nat) (k : FieldKind)
    (hf : findField fold Callback.fields m.1 = some i)
    (hk : Callback.kinds[i]? = some k) (hn : m.2.isNull = true)
    (hw : (w.values)[i]? = some (zeroValue k)) :
    ((Callback.setMember fold w m).1.values)[i]? = some (zeroValue k) := by
  obtain ⟨key, val⟩ := m
  cases val <;> cases hn
  unfold Callback.setMember
  rw [hf]
  rcases i with _ | _ | _ | _ | _ | _ | _ | _ | i <;> cases hk <;> exact hw

theorem Callback_setMember_hit (fold : GoString → GoString) (w : Callback)
    (m : GoString × Json) (i : Nat) (k : FieldKind)
    (hf : findField fold Callback.fields m.1 = some i)
    (hk : Callback.kinds[i]? = some k) (hg : isValueOf fold k m.2 = true)
    (_ : (w.values)[i]? = some (zeroValue k)) :
    ∃ x, ((Callback.setMember fold w m).1.values)[i]? = some x ∧ sameValue k x m.2 := by
  unfold Callback.setMember
  rw [hf]
  rcases i with _ | _ | _ | _ | _ | _ | _ | _ | i <;> cases hk <;>
    first
    | exact ⟨_, rfl, (unmarshalString_document _ _ hg).2⟩
    | exact ⟨_, rfl, (unmarshalUint64_document _ _ hg).2⟩

theorem Callback_zero_values (i : Nat) (k : FieldKind)
    (hk : Callback.kinds[i]? = some k) :
    (Callback.zero.values)[i]? = some (zeroValue k) := by
  rcases i with _ | _ | _ | _ | _ | _ | _ | _ | i <;> cases hk <;> rfl

theorem unmarshalSubmissionPayload_document (fold : GoString → GoString)
    (doc : Json) (h : isSubmissionDocument fold doc = true) :
    (∀ cur, (unmarshalSubmissionPayload fold cur doc).2 = none) ∧
    sameDocument SubmissionPayload.fields SubmissionPayload.kinds
      (marshalSubmissionPayload
        (unmarshalSubmissionPayload fold SubmissionPayload.zero doc).1) doc := by
  cases doc with
  | object ms =>
    have hdoc := unmarshalMembers_document fold SubmissionPayload.fields
      SubmissionPayload.kinds SubmissionPayload.values (SubmissionPayload.setMember fold)
      (isValueOf fold) sameValue (Nat.le_refl _) (fun _ => Nat.le_refl _)
      (SubmissionPayload_setMember_frame fold) (SubmissionPayload_setMember_miss fold)
      (SubmissionPayload_setMember_no_error fold) (SubmissionPayload_setMember_null fold)
      (SubmissionPayload_setMember_hit fold) ms h
    exact ⟨hdoc.1, hdoc.2 SubmissionPayload.zero SubmissionPayload_zero_values⟩
  | null => simp [isSubmissionDocument, isDocumentWith] at h
  | bool b => simp [isSubmissionDocument, isDocumentWith] at h
  | number n => simp [isSubmissionDocument, isDocumentWith] at h
  | real r => simp [isSubmissionDocument, isDocumentWith] at h
  | string s => simp [isSubmissionDocument, isDocumentWith] at h
  | array xs => simp [isSubmissionDocument, isDocumentWith] at h

theorem unmarshalCallback_document (fold : GoString → GoString)
    (doc : Json) (h : isCallbackDocument fold doc = true) :
    (∀ cur, (unmarshalCallback fold cur doc).2 = none) ∧
    sameDocument Callback.fields Callback.kinds
      (marshalCallback (unmarshalCallback fold Callback.zero doc).1) doc := by
  cases doc with
  | object ms =>
    have hdoc := unmarshalMembers_document fold Callback.fields Callback.kinds
      Callback.values (Callback.setMember fold) (isValueOf fold) sameValue
      (Nat.le_refl _) (fun _ => Nat.le_refl _) (Callback_setMember_frame fold)
      (Callback_setMember_miss fold) (Callback_setMember_no_error fold)
      (Callback_setMember_null fold) (Callback_setMember_hit fold) ms h
    exact ⟨hdoc.1, hdoc.2 Callback.zero Callback_zero_values⟩
  | null => simp [isCallbackDocument, isDocumentWith] at h
  | bool b => simp [isCallbackDocument, isDocumentWith] at h
  | number n => simp [isCallbackDocument, isDocumentWith] at h
  | real r => simp [isCallbackDocument, isDocumentWith] at h
  | string s => simp [isCallbackDocument, isDocumentWith] at h
  | array xs => simp [isCallbackDocument, isDocumentWith] at h

/-- C8, the claim fails. A SubmissionPayload whose APIVersion is the byte FF is
encoded with U+FFFD in its place, and decoding the encoding gives the bytes
EF BF BD, not the value encoded. The payload of the example response of the
source has no member conflictedWith, while the encoding of what it decodes to
has one, holding `null`. And a document that gives txid twice is decoded
without error and comes back with the second value only. -/
theorem marshal_replaces_invalid_utf8 :
    (unmarshalSubmissionPayload id SubmissionPayload.zero
      (marshalSubmissionPayload invalidTextPayload)).1 ≠ invalidTextPayload ∧
    (unmarshalSubmissionPayload id SubmissionPayload.zero
      (marshalSubmissionPayload invalidTextPayload)).1.APIVersion = [0xEF, 0xBF, 0xBD] ∧
    (unmarshalSubmissionPayload id SubmissionPayload.zero exampleSubmissionDocument).2 = none ∧
    exampleSubmissionDocument.member (str "conflictedWith") = none ∧
    (marshalSubmissionPayload
      (unmarshalSubmissionPayload id SubmissionPayload.zero exampleSubmissionDocument).1).member
        (str "conflictedWith") = some .null ∧
    (unmarshalSubmissionPayload id SubmissionPayload.zero duplicateKeyDocument).2 = none ∧
    duplicateKeyDocument.member (str "txid") = some (.string (str "6bdbcfab")) ∧
    (marshalSubmissionPayload
      (unmarshalSubmissionPayload id SubmissionPayload.zero duplicateKeyDocument).1).member
        (str "txid") = some (.string (str "e7b3eefa")) :=
  ⟨by decide, by decide, rfl, rfl, rfl, rfl, rfl, rfl⟩

/-- C8 as amended. A well-formed SubmissionPayload or Callback document (an
object that gives no key of the struct twice, with keys written as the struct
writes them or naming no field, strings of valid UTF-8 and integers within the
range of the field) is decoded without error, into whatever value; decoded
into the zero value and encoded again, every key of the struct comes back with
the same value, or with the zero value of the field ("", 0, null) where the
document holds null or lacks the key. And decoding the encoding of a
SubmissionPayload or Callback value whose strings are valid UTF-8 (and whose
integers are within the range of their types) gives the value back. -/
theorem marshal_unmarshal_lossless (fold : GoString → GoString) :
    (∀ (doc : Json), isSubmissionDocument fold doc = true →
      (∀ cur, (unmarshalSubmissionPayload fold cur doc).2 = none) ∧
      sameDocument SubmissionPayload.fields SubmissionPayload.kinds
        (marshalSubmissionPayload
          (unmarshalSubmissionPayload fold SubmissionPayload.zero doc).1) doc) ∧
    (∀ (doc : Json), isCallbackDocument fold doc = true →
      (∀ cur, (unmarshalCallback fold cur doc).2 = none) ∧
      sameDocument Callback.fields Callback.kinds
        (marshalCallback (unmarshalCallback fold Callback.zero doc).1) doc) ∧
    (∀ (p cur : SubmissionPayload), p.wellFormed = true →
      unmarshalSubmissionPayload fold cur (marshalSubmissionPayload p) = (p, none)) ∧
    (∀ (c cur : Callback), c.wellFormed = true →
      unmarshalCallback fold cur (marshalCallback c) = (c, none)) :=
  ⟨fun doc h => unmarshalSubmissionPayload_document fold doc h,
   fun doc h => unmarshalCallback_document fold doc h,
   fun p cur h => unmarshalSubmissionPayload_marshal fold cur p h,
   fun c cur h => unmarshalCallback_marshal fold cur c h⟩

/-- C8 at concrete inputs: the payload of the example response of the source,
which has no member conflictedWith, and the documents and values of the
double spend and of the example callback are well formed. -/
theorem marshal_unmarshal_lossless_witness :
    isSubmissionDocument id exampleSubmissionDocument = true ∧
    sameDocument SubmissionPayload.fields SubmissionPayload.kinds
      (marshalSubmissionPayload
        (unmarshalSubmissionPayload id SubmissionPayload.zero exampleSubmissionDocument).1)
      exampleSubmissionDocument ∧
    isSubmissionDocument id doubleSpendDocument = true ∧
    sameDocument SubmissionPayload.fields SubmissionPayload.kinds
      (marshalSubmissionPayload
        (unmarshalSubmissionPayload id SubmissionPayload.zero doubleSpendDocument).1)
      doubleSpendDocument ∧
    isCallbackDocument id (marshalCallback exampleCallback) = true ∧
    exampleCallback.wellFormed = true ∧
    unmarshalCallback id Callback.zero (marshalCallback exampleCallback) =
      (exampleCallback, none) :=
  ⟨by decide,
   ((marshal_unmarshal_lossless id).1 exampleSubmissionDocument (by decide)).2,
   by decide,
   ((marshal_unmarshal_lossless id).1 doubleSpendDocument (by decide)).2,
   by decide, by decide,
   (marshal_unmarshal_lossless id).2.2.2 exampleCallback Callback.zero (by decide)⟩

end Minercraft
